import Mathlib

/-!
Verification model of the streaming audio processor
(`server/audio/processor.ts`, `server/lib/gemini.ts`,
`server/sockets/handlers.ts`).

The processor keeps per-session in-memory maps (fragment buffers, a
chunk timer, cumulative size, on-disk fragment queue, fragment metadata,
last stitched-chunk hash) and persists a session row and transcript-chunk
rows in the database.  All claims are per-session, so the model tracks the
state of one session: each `Map.get(sessionId)` becomes an `Option` field.

External collaborators (sha256, the Gemini transcriber and summarizer)
are modelled as parameters: the theorems hold for every choice of these
functions unless a claim pins a concrete behaviour.  The ffmpeg
conversion strategies of `processChunk` catch all their errors internally
and fall back to the original bytes, so they never alter control flow or
database effects; the transcriber parameter absorbs them.
-/

set_option maxRecDepth 100000

namespace AudioPipeline

/-- Byte payloads are lists of bytes (values irrelevant beyond equality
and length, matching `Buffer` usage in the source). -/
abbrev Bytes := List Nat

/-- `MIN` fragment guard of `addChunk`: payloads below 1024 bytes are
dropped silently (source line: `if (audioData.length < 1024) return`). -/
def MIN_FRAGMENT_BYTES : Nat := 1024

/-- `MIN_CHUNK_SIZE_BYTES = 10000` from `processor.ts`. -/
def MIN_CHUNK_SIZE_BYTES : Nat := 10000

/-- `MAX_BUFFER_SIZE = 2 * 1024 * 1024 * 1024` from `processor.ts`. -/
def MAX_BUFFER_SIZE : Nat := 2 * 1024 * 1024 * 1024

/-- The exact overflow error message thrown by `addChunk`. -/
def BUFFER_OVERFLOW_MSG : String := "Buffer overflow: Session exceeds maximum size"

/-- Optional per-fragment metadata supplied by a caller of `addChunk`
(`metadata?: { audioLevel?: number; chunkId?: string }`). -/
structure MetaIn where
  audioLevel : Option ℚ
  chunkId : Option String
deriving DecidableEq, Repr

/-- Entry of the `chunkMetadata` queue
(`{ audioLevel?: number; chunkId?: string; size: number }`). -/
structure MetaEntry where
  audioLevel : Option ℚ
  chunkId : Option String
  size : Nat
deriving DecidableEq, Repr

/-- Prisma `SessionStatus` enum. -/
inductive SessionStatus where
  | RECORDING | PAUSED | PROCESSING | COMPLETED | CANCELLED
deriving DecidableEq, Repr

/-- The fields of the `recording_session` row that the pipeline writes. -/
structure SessionRow where
  status : SessionStatus
  transcriptText : Option String
  summary : Option String
  duration : Option Nat
deriving DecidableEq, Repr

/-- A `transcript_chunk` row (`sessionId` implicit: single-session model). -/
structure ChunkRow where
  chunkIndex : Nat
  text : String
  confidence : Option ℚ
deriving DecidableEq, Repr

/-- Database state for the session: its row and its chunk rows in
creation order (`orderBy chunkIndex asc` coincides with creation order). -/
structure Db where
  session : Option SessionRow
  chunks : List ChunkRow
deriving DecidableEq, Repr

/-- State of the per-session `setTimeout` handle in `chunkTimers`:
`idle` = no map entry, `armed` = a live timer is pending, `stale` = the
map still holds a handle whose callback has already fired (the callback
deletes the entry only after `processChunk` returns normally). -/
inductive TimerSt where
  | idle | armed | stale
deriving DecidableEq, Repr

/-- The per-session slices of the `AudioProcessor` in-memory maps.
`none` models absence of the key in the corresponding `Map`. -/
structure Mem where
  buffers : Option (List Bytes)
  timer : TimerSt
  startTime : Option Nat
  totalSize : Option Nat
  fileQueue : Option (List Bytes)
  metadata : Option (List MetaEntry)
  lastHash : Option Nat
deriving DecidableEq, Repr

/-- Result of `addChunk`: normal return or a thrown `Error(msg)`. -/
inductive AddResult where
  | ok
  | err (msg : String)
deriving DecidableEq, Repr

/-- `AudioProcessor.addChunk` (processor.ts lines 82-123): silence-gate
guard, overflow check, then append to buffer list, cumulative size,
metadata queue and the on-disk fragment queue (`saveChunkToDisk`), and
arm the chunk timer when no entry is present in `chunkTimers`. -/
def addChunk (m : Mem) (payload : Bytes) (meta : Option MetaIn) : AddResult × Mem :=
  if payload.length < MIN_FRAGMENT_BYTES then
    (AddResult.ok, m)
  else if MAX_BUFFER_SIZE < m.totalSize.getD 0 + payload.length then
    (AddResult.err BUFFER_OVERFLOW_MSG, m)
  else
    (AddResult.ok,
      { m with
        buffers := some ((m.buffers.getD []) ++ [payload])
        totalSize := some (m.totalSize.getD 0 + payload.length)
        metadata := some ((m.metadata.getD []) ++
          [{ audioLevel := meta.bind MetaIn.audioLevel
             chunkId := meta.bind MetaIn.chunkId
             size := payload.length }])
        fileQueue := some ((m.fileQueue.getD []) ++ [payload])
        timer := if m.timer = TimerSt.idle then TimerSt.armed else m.timer })

/-- Sum of the lengths of the buffered fragments of a session. -/
def memFragBytes (m : Mem) : Nat :=
  ((m.buffers.getD []).map List.length).sum

/-! ### String helpers mirroring the JavaScript primitives used -/

/-- `needle` occurs at the start of `hay` (JS `String.startsWith`). -/
def startsWithChars : List Char → List Char → Bool
  | [], _ => true
  | _ :: _, [] => false
  | a :: as, b :: bs => a = b && startsWithChars as bs

/-- `needle` occurs somewhere in `hay` (JS case-sensitive `String.includes`). -/
def containsChars (needle : List Char) : List Char → Bool
  | [] => startsWithChars needle []
  | c :: cs => startsWithChars needle (c :: cs) || containsChars needle cs

/-- JS `s.includes(needle)` on strings. -/
def strIncludes (s needle : String) : Bool :=
  containsChars needle.toList s.toList

/-- JS `s.toLowerCase()` (ASCII model). -/
def lowerStr (s : String) : String :=
  String.mk (s.toList.map Char.toLower)

/-- ASCII apostrophe, kept out of string literals. -/
def apos : String := String.mk [Char.ofNat 39]

/-! ### Rolling transcription context (processChunk lines 293-316) -/

/-- Filter applied to the recent chunk texts when assembling the
previous-transcript context: drop empty texts, the silence marker,
short inaudible markers, and anything of 15 characters or fewer. -/
def contextTextFilter (text : String) : Bool :=
  if text.length = 0 || text = "[silence]" then false
  else if strIncludes (lowerStr text) "inaudible" && text.length < 30 then false
  else decide (15 < text.length)

/-- Last `n` characters of a string (JS `substring(length - n)`). -/
def lastChars (n : Nat) (s : String) : String :=
  String.mk (s.toList.drop (s.length - n))

/-- Builds `previousContext` from the session chunk rows: last 5 chunk
texts, trimmed and filtered, joined with blank lines, tail-cropped to
500 characters; empty when no substantive text remains. -/
def buildContext (chunks : List ChunkRow) : String :=
  let recent := chunks.drop (chunks.length - 5)
  let contextTexts := (recent.map (fun c => c.text.trim)).filter contextTextFilter
  if 0 < contextTexts.length then
    let ctx := String.intercalate "\n\n" contextTexts
    if 500 < ctx.length then lastChars 500 ctx else ctx
  else ""

/-! ### The chunk pipeline (`processChunk`) -/

/-- `averageAudioLevel` computation of `processChunk` (lines 168-172):
mean over the drawn metadata entries of `audioLevel ?? 0`; `null`
(`none`) only when no metadata entry was drawn. -/
def averageAudioLevel (ms : List MetaEntry) : Option ℚ :=
  if 0 < ms.length then
    some (((ms.map (fun e => e.audioLevel.getD 0)).sum) / (ms.length : ℚ))
  else none

/-- How one `processChunk` run ended. -/
inductive TickResult where
  | noBuffers
  | skipSmall
  | skipSilence
  | skipDuplicate
  | transcribeFailed
  | sessionMissing
  | committed (row : ChunkRow)
deriving DecidableEq, Repr

/-- The external collaborators `processChunk` and `stopRecording` call:
the sha256 content hash, the (converted-audio) transcriber keyed by the
combined bytes and the rolling context, and the summarizer.  A `none`
result models a thrown error. -/
structure Env where
  hash : Bytes → Nat
  transcribe : Bytes → String → Option String
  summarize : String → Option String

/-- Data captured by `processChunk` before its transcriber call:
the combined bytes, the computed average audio level, the session
fetch result (its chunk rows, `none` when the row is absent) and the
assembled context. -/
structure PendingCall where
  combined : Bytes
  avg : Option ℚ
  fetched : Option (List ChunkRow)
  ctx : String
deriving DecidableEq, Repr

/-- First phase of `processChunk` (lines 144-319): either the run ends
before any transcriber call (empty buffer, size gate, silence gate,
duplicate hash), or it reaches the call with a `PendingCall` snapshot.
The metadata queue is spliced and `lastChunkHashes` is updated already
in this phase, exactly as in the source. -/
inductive ProStep where
  | done (r : TickResult) (m : Mem)
  | call (p : PendingCall) (m : Mem)
deriving Repr

/-- The silence gate of `processChunk` (lines 188-199):
`averageAudioLevel !== null && averageAudioLevel < 0.02 && totalSize < 40000`. -/
def silenceGate (avg : Option ℚ) (totalSize : Nat) : Bool :=
  (match avg with | some a => decide (a < 2/100) | none => false) &&
    decide (totalSize < MIN_CHUNK_SIZE_BYTES * 4)

/-- In-memory state after an early return of `processChunk` (size,
silence or duplicate gate): the source splices the metadata queue first
and then overwrites both the buffer list and the metadata queue with
`[]`, so the net state is empty buffers and empty metadata. -/
def afterSkipMem (m : Mem) : Mem :=
  { m with buffers := some [], metadata := some [] }

/-- The `previousContext` argument of the transcriber call: built from
the fetched session chunks when the session row exists and has chunks
(lines 293-316). -/
def contextFor (db : Db) : String :=
  match db.session with
  | some _ => if 0 < db.chunks.length then buildContext db.chunks else ""
  | none => ""

/-- Body of `processChunkPrologue` for a present (possibly empty) buffer
list.  The source's early returns are flattened into an if-chain; each
branch reproduces the exact net state the source leaves behind
(see `afterSkipMem`).  In the call branch, the metadata queue holds the
drop of the splice and `lastChunkHashes` is already updated -- before
the transcriber is invoked. -/
def prologueWithBuffers (env : Env) (m : Mem) (db : Db) (bufferList : List Bytes) : ProStep :=
  if bufferList.length = 0 then ProStep.done TickResult.noBuffers m
  else if bufferList.flatten.length < MIN_CHUNK_SIZE_BYTES then
    ProStep.done TickResult.skipSmall (afterSkipMem m)
  else if silenceGate (averageAudioLevel ((m.metadata.getD []).take bufferList.length))
      bufferList.flatten.length then
    ProStep.done TickResult.skipSilence (afterSkipMem m)
  else if m.lastHash = some (env.hash bufferList.flatten) then
    ProStep.done TickResult.skipDuplicate (afterSkipMem m)
  else
    ProStep.call
      { combined := bufferList.flatten
        avg := averageAudioLevel ((m.metadata.getD []).take bufferList.length)
        fetched := db.session.map (fun _ => db.chunks)
        ctx := contextFor db }
      { m with
        metadata := some ((m.metadata.getD []).drop bufferList.length)
        lastHash := some (env.hash bufferList.flatten) }

def processChunkPrologue (env : Env) (m : Mem) (db : Db) : ProStep :=
  match m.buffers with
  | none => ProStep.done TickResult.noBuffers m
  | some bufferList => prologueWithBuffers env m db bufferList

/-- Second phase of `processChunk` (lines 319-367): the transcriber
result is persisted as a chunk row with `chunkIndex = session.chunks.length`
from the pre-call fetch, and the buffers are cleared.  A transcriber
throw propagates (buffers are NOT cleared); a missing session returns
without clearing. -/
def processChunkEpilogue (env : Env) (p : PendingCall) (m : Mem) (db : Db) :
    TickResult × Mem × Db :=
  match env.transcribe p.combined p.ctx with
  | none => (TickResult.transcribeFailed, m, db)
  | some transcript =>
    match p.fetched with
    | none => (TickResult.sessionMissing, m, db)
    | some chunks =>
      let row : ChunkRow :=
        { chunkIndex := chunks.length, text := transcript, confidence := p.avg }
      (TickResult.committed row,
        { m with buffers := some [], metadata := some [] },
        { db with chunks := db.chunks ++ [row] })

/-- A full synchronous `processChunk` run. -/
def processChunk (env : Env) (m : Mem) (db : Db) : TickResult × Mem × Db :=
  match processChunkPrologue env m db with
  | ProStep.done r m1 => (r, m1, db)
  | ProStep.call p m1 => processChunkEpilogue env p m1 db

/-! ### Session lifecycle operations -/

/-- Fresh in-memory entries created by `initializeSession` (lines 60-66).
`chunkTimers` is not touched by the source, so the timer field is kept. -/
def freshMem (timer : TimerSt) : Mem :=
  { buffers := some [], timer := timer, startTime := some 0, totalSize := some 0,
    fileQueue := some [], metadata := some [], lastHash := none }

/-- `initializeSession` (lines 60-77): resets the in-memory maps first,
then creates the database row in `RECORDING`.  When a row with the same
id already exists the create throws (after the in-memory reset), which
the socket handler catches. -/
def initializeSession (m : Mem) (db : Db) : Mem × Db × AddResult :=
  let m1 := freshMem m.timer
  match db.session with
  | some _ => (m1, db, AddResult.err "id collision")
  | none =>
    let row : SessionRow :=
      { status := SessionStatus.RECORDING
        transcriptText := none
        summary := none
        duration := none }
    (m1, { db with session := some row }, AddResult.ok)

/-- `pauseRecording` (lines 1006-1017): clear the timer, then update the
session row to `PAUSED` (the update throws when the row is absent). -/
def pauseRecording (m : Mem) (db : Db) : Mem × Db × AddResult :=
  let m1 := { m with timer := TimerSt.idle }
  match db.session with
  | none => (m1, db, AddResult.err "not found")
  | some s =>
    (m1, { db with session := some { s with status := SessionStatus.PAUSED } },
      AddResult.ok)

/-- `resumeRecording` (lines 1022-1030): update the session row to
`RECORDING` (a throw aborts before scheduling), then arm the timer. -/
def resumeRecording (m : Mem) (db : Db) : Mem × Db × AddResult :=
  match db.session with
  | none => (m, db, AddResult.err "not found")
  | some s =>
    ({ m with timer := TimerSt.armed },
      { db with session := some { s with status := SessionStatus.RECORDING } },
      AddResult.ok)

/-- In-memory state with every per-session map entry deleted, as left
behind by `cancelRecording` and by the cleanup steps of `stopRecording`. -/
def clearedMem : Mem :=
  { buffers := none, timer := TimerSt.idle, startTime := none, totalSize := none,
    fileQueue := none, metadata := none, lastHash := none }

/-- `cancelRecording` (lines 1035-1065): delete every in-memory entry,
clear the timer, remove the fragment files, then update the session row
to `CANCELLED` (errors of that update are caught and swallowed). -/
def cancelRecording (_m : Mem) (db : Db) : Mem × Db :=
  match db.session with
  | none => (clearedMem, db)
  | some s =>
    (clearedMem, { db with session := some { s with status := SessionStatus.CANCELLED } })

/-! ### Finalizer (`stopRecording`) -/

/-- Boilerplate / refusal phrases filtered out of the final transcript
(lines 956-969); the comparison is on the lowercased trimmed text. -/
def isBoilerplateChunk (text : String) : Bool :=
  let lowerText := lowerStr text
  strIncludes lowerText "the audio appears to be silent" ||
  strIncludes lowerText "cannot provide a transcription" ||
  strIncludes lowerText "no discernible speech" ||
  strIncludes lowerText ("okay, here" ++ apos ++ "s the transcription")

/-- The valid chunk texts kept for the final transcript: trimmed,
non-empty, not boilerplate (lines 953-969). -/
def validChunkTexts (chunks : List ChunkRow) : List String :=
  ((chunks.map (fun c => c.text.trim)).filter
    (fun t => !(t.length = 0) && !(isBoilerplateChunk t)))

/-- The final transcript: valid chunk texts joined with blank lines. -/
def fullTranscriptOf (chunks : List ChunkRow) : String :=
  String.intercalate "\n\n" (validChunkTexts chunks)

/-- How `stopRecording` ended. -/
inductive StopOutcome where
  | ok (transcript summary : String)
  | errTranscribe
  | errNoSession
  | errSummarize
deriving DecidableEq, Repr

/-- Whether the drain step of `stopRecording` runs `processChunk` at
all: only when a buffer entry exists and is non-empty. -/
def stopDrains (m : Mem) : Bool :=
  match m.buffers with
  | some bufferList => decide (0 < bufferList.length)
  | none => false

/-- Steps (b)-(g) of `stopRecording`, starting from the database state
left by the drain.  The fetch of the chunk rows happens after the
`PROCESSING` update, which does not change them, so the transcript is
computed from `db1.chunks`. -/
def stopFinalize (env : Env) (db1 : Db) : Mem × Db × StopOutcome :=
  match db1.session with
  | none => (clearedMem, db1, StopOutcome.errNoSession)
  | some srow =>
    match env.summarize (fullTranscriptOf db1.chunks) with
    | none =>
      (clearedMem,
        { db1 with session := some { srow with status := SessionStatus.PROCESSING } },
        StopOutcome.errSummarize)
    | some summary =>
      (clearedMem,
        { db1 with session := some { srow with
            status := SessionStatus.COMPLETED
            transcriptText := some (fullTranscriptOf db1.chunks)
            summary := some summary
            duration := none } },
        StopOutcome.ok (fullTranscriptOf db1.chunks) summary)

/-- `stopRecording` (lines 914-1001).  Order of effects, as in the
source: (a) a synchronous `processChunk` drain when buffered fragments
exist (its throw propagates as `errTranscribe`, leaving the database
untouched); (b) timer cleared and every in-memory map entry deleted --
including `sessionStartTimes`, which is why the `duration` read later
always yields `null`; (c) session row to `PROCESSING` (throws when the
row is absent); (d) chunk rows fetched and filtered into the final
transcript; (e) `generateSummary` (its throw propagates, leaving the
row in `PROCESSING`); (f) session row to `COMPLETED` with transcript,
summary and `duration = null`. -/
def stopRecording (env : Env) (m : Mem) (db : Db) : Mem × Db × StopOutcome :=
  if stopDrains m then
    if (processChunk env m db).1 = TickResult.transcribeFailed then
      ((processChunk env m db).2.1, db, StopOutcome.errTranscribe)
    else stopFinalize env (processChunk env m db).2.2
  else stopFinalize env db

/-! ### Trace semantics

Per-session runs are sequences of operations.  A scheduler tick can only
fire while a live timer is armed; ticks for one session are serialized
(the callback awaits `processChunk`), so a second tick cannot begin while
one is in flight.  `tickBegin`/`tickFinish` expose the suspension point
of `processChunk` at its transcriber call, which is where `cancelRecording`
can interleave. -/

structure Config where
  mem : Mem
  db : Db
  pending : Option PendingCall
deriving DecidableEq, Repr

/-- The initial configuration: no in-memory entries, no session row. -/
def Config.init : Config :=
  { mem := { buffers := none, timer := TimerSt.idle, startTime := none,
             totalSize := none, fileQueue := none, metadata := none, lastHash := none }
    db := { session := none, chunks := [] }
    pending := none }

/-- Events a per-session trace is composed of. -/
inductive Ev where
  | init
  | add (payload : Bytes) (meta : Option MetaIn)
  | tick
  | tickBegin
  | tickFinish
  | pause
  | resume
  | stop
  | cancel
deriving DecidableEq, Repr

/-- Timer state after the scheduler callback returns from `processChunk`
(lines 129-138): on a throw neither the `chunkTimers.delete` nor the
re-scheduling runs, leaving the fired handle in the map (`stale`);
otherwise the entry is deleted and re-armed iff `buffers` still has a
key for the session. -/
def afterTickTimer (r : TickResult) (fallback : TimerSt) (m : Mem) : TimerSt :=
  if r = TickResult.transcribeFailed then fallback
  else if m.buffers.isSome then TimerSt.armed else TimerSt.idle

/-- One step of the per-session semantics; `none` when the event cannot
occur in the given configuration (a tick with no armed timer, a second
tick while one is in flight, completion with nothing in flight).  Thrown
errors of the operations are caught by the socket handlers, so lifecycle
events always step, keeping whatever partial effects the source applied
before the throw. -/
def stepEv (env : Env) (e : Ev) (c : Config) : Option Config :=
  match e with
  | Ev.init =>
    some { c with mem := (initializeSession c.mem c.db).1,
                  db := (initializeSession c.mem c.db).2.1 }
  | Ev.add payload meta =>
    some { c with mem := (addChunk c.mem payload meta).2 }
  | Ev.tick =>
    if c.mem.timer = TimerSt.armed && c.pending.isNone then
      some { mem := { (processChunk env c.mem c.db).2.1 with
                 timer := afterTickTimer (processChunk env c.mem c.db).1 TimerSt.stale
                   (processChunk env c.mem c.db).2.1 }
             db := (processChunk env c.mem c.db).2.2
             pending := none }
    else none
  | Ev.tickBegin =>
    if c.mem.timer = TimerSt.armed && c.pending.isNone then
      match processChunkPrologue env c.mem c.db with
      | ProStep.done r m1 =>
        some { mem := { m1 with timer := afterTickTimer r TimerSt.stale m1 }
               db := c.db
               pending := none }
      | ProStep.call p m1 =>
        some { mem := { m1 with timer := TimerSt.stale }, db := c.db, pending := some p }
    else none
  | Ev.tickFinish =>
    match c.pending with
    | none => none
    | some p =>
      some { mem := { (processChunkEpilogue env p c.mem c.db).2.1 with
                 timer := afterTickTimer (processChunkEpilogue env p c.mem c.db).1
                   c.mem.timer (processChunkEpilogue env p c.mem c.db).2.1 }
             db := (processChunkEpilogue env p c.mem c.db).2.2
             pending := none }
  | Ev.pause =>
    some { c with mem := (pauseRecording c.mem c.db).1,
                  db := (pauseRecording c.mem c.db).2.1 }
  | Ev.resume =>
    some { c with mem := (resumeRecording c.mem c.db).1,
                  db := (resumeRecording c.mem c.db).2.1 }
  | Ev.stop =>
    some { c with mem := (stopRecording env c.mem c.db).1,
                  db := (stopRecording env c.mem c.db).2.1 }
  | Ev.cancel =>
    some { c with mem := (cancelRecording c.mem c.db).1,
                  db := (cancelRecording c.mem c.db).2 }

/-- Runs a list of events; `none` as soon as one event cannot occur. -/
def runEvents (env : Env) : List Ev → Config → Option Config
  | [], c => some c
  | e :: es, c =>
    match stepEv env e c with
    | none => none
    | some c1 => runEvents env es c1

/-! ### Transcriber retry loop (`transcribeAudio`, gemini.ts lines 239-313) -/

/-- `maxRetries = 3` of `transcribeAudio`. -/
def maxRetries : Nat := 3

/-- `baseRetryDelay = 2000` milliseconds. -/
def baseRetryDelay : Nat := 2000

/-- A thrown Gemini API error: its message string, and the
`RetryInfo.retryDelay` seconds parsed from `error.details` when the
response carries one (the source extracts the first digit group of the
`"58s"`-style field and multiplies by 1000). -/
structure GenError where
  message : String
  retryDelaySeconds : Option Nat
deriving DecidableEq, Repr

/-- Rate-limit classification (lines 271-275): case-sensitive
`String.includes` checks on the error message. -/
def isRateLimitErr (e : GenError) : Bool :=
  strIncludes e.message "429" || strIncludes e.message "rate limit" ||
  strIncludes e.message "quota" || strIncludes e.message "RESOURCE_EXHAUSTED"

/-- Retryable classification (lines 294-299). -/
def isRetryableErr (e : GenError) : Bool :=
  isRateLimitErr e || strIncludes e.message "network" ||
  strIncludes e.message "timeout" || strIncludes e.message "503" ||
  strIncludes e.message "500"

/-- The delay slept before the next attempt (lines 278-291): exponential
back-off `2000 * 2 ^ attempt`, overridden by the server-suggested delay
when the error is a rate limit carrying `RetryInfo`. -/
def retryDelayMsFor (e : GenError) (attempt : Nat) : Nat :=
  let backoff := baseRetryDelay * 2 ^ attempt
  if isRateLimitErr e then
    match e.retryDelaySeconds with
    | some s => s * 1000
    | none => backoff
  else backoff

/-- One observable step of the retry loop: a successful call, a failed
call followed by a back-off sleep and retry, a failed call followed by
an immediate retry (the `else` branch of lines 305-311 neither sleeps
nor exits the `for` loop when the attempt is not the last), or the
final failed call whose error is thrown. -/
inductive AttemptEv where
  | success (attempt : Nat)
  | sleepRetry (attempt delayMs : Nat)
  | immediateRetry (attempt : Nat)
  | threw (attempt : Nat)
deriving DecidableEq, Repr

/-- The `for (attempt = 0; attempt < maxRetries; attempt++)` loop of
`transcribeAudio`, with the outcome of the i-th API call given by
`oracle i`.  Returns the trace of calls made and the final result. -/
def retryLoopFrom (oracle : Nat → Except GenError String) :
    Nat → Nat → List AttemptEv × Except GenError String
  | 0, _ => ([], Except.error { message := "no response", retryDelaySeconds := none })
  | fuel + 1, attempt =>
    match oracle attempt with
    | Except.ok t => ([AttemptEv.success attempt], Except.ok t)
    | Except.error e =>
      if isRetryableErr e && decide (attempt < maxRetries - 1) then
        let r := retryLoopFrom oracle fuel (attempt + 1)
        (AttemptEv.sleepRetry attempt (retryDelayMsFor e attempt) :: r.1, r.2)
      else if attempt = maxRetries - 1 then
        ([AttemptEv.threw attempt], Except.error e)
      else
        let r := retryLoopFrom oracle fuel (attempt + 1)
        (AttemptEv.immediateRetry attempt :: r.1, r.2)

/-- The whole retry phase: attempts start at 0 with `maxRetries` fuel. -/
def transcribeAttempts (oracle : Nat → Except GenError String) :
    List AttemptEv × Except GenError String :=
  retryLoopFrom oracle maxRetries 0

/-! ### Summarizer (`generateSummary`, gemini.ts lines 526-621) -/

/-- The fallback summary produced when the cleaned summary text is
empty (line 616). -/
def SUMMARY_FALLBACK : String := "Summary could not be generated from the transcript."

/-- `generateSummary` over the Gemini API call (`api`, `none` = the call
threw) and the hallucination-scrubbing pipeline of lines 573-614
(`scrub transcript text`, a pure text-to-text stage which no claim
depends on and which cannot throw).  A thrown API error propagates: the
`catch` of lines 617-620 rethrows `Failed to generate summary`.  On
success the scrubbed text is trimmed and an empty result is replaced by
`SUMMARY_FALLBACK` (`return cleanedText.trim() || ...`). -/
def generateSummary (api : String → Option String) (scrub : String → String → String)
    (transcript : String) : Option String :=
  match api transcript with
  | none => none
  | some text =>
    let cleanedText := (scrub transcript text).trim
    some (if cleanedText.length = 0 then SUMMARY_FALLBACK else cleanedText)

/-! ### Consecutive-duplicate-line removal (`transcribeAudio`, lines 421-448) -/

/-- The body of the dedup loop, carrying `lastLine` and
`consecutiveDuplicates` exactly as the source does: a line equal
(case-insensitively) to `lastLine` and longer than 15 characters bumps
the counter, and is dropped only once the counter reaches 2; otherwise
the line is pushed and becomes `lastLine`, resetting the counter on a
non-duplicate. -/
def dedupGo : List String → String → Nat → List String
  | [], _, _ => []
  | currentLine :: rest, lastLine, consecutiveDuplicates =>
    if lowerStr currentLine = lowerStr lastLine && 15 < (lowerStr currentLine).length then
      if 2 ≤ consecutiveDuplicates + 1 then
        dedupGo rest lastLine (consecutiveDuplicates + 1)
      else currentLine :: dedupGo rest currentLine (consecutiveDuplicates + 1)
    else currentLine :: dedupGo rest currentLine 0

/-- Deduplication pass over the trimmed non-empty lines. -/
def dedupLines (lines : List String) : List String :=
  dedupGo lines "" 0

/-- The full stage: split on newlines, trim, drop empty lines, run the
dedup loop, re-join. -/
def dedupStage (text : String) : String :=
  String.intercalate "\n"
    (dedupLines (((text.splitOn "\n").map String.trim).filter (fun l => 0 < l.length)))

/-! ### Event classifiers used by the trace-level claims -/

/-- `e` is an ingest (`audio-chunk`) event. -/
def evIsAdd : Ev → Bool
  | Ev.add _ _ => true
  | _ => false

/-- `e` is a lifecycle command (start / pause / resume / stop / cancel). -/
def evIsLifecycle : Ev → Bool
  | Ev.init | Ev.pause | Ev.resume | Ev.stop | Ev.cancel => true
  | _ => false

/-- `e` moves the session out of its pause (or tears it down). -/
def evEndsPause : Ev → Bool
  | Ev.init | Ev.resume | Ev.stop | Ev.cancel => true
  | _ => false

/-! ### Claim statements over the model -/

/-- Claim C1 as stated: from any reachable configuration directly after a
`Pause` that left the session in Paused state, as long as no event ends
the pause, no chunk row is produced and no scheduler tick fires
(ingest events are explicitly permitted in between). -/
def claim1Statement : Prop :=
  ∀ (env : Env) (pre mid : List Ev) (c1 c2 : Config),
    runEvents env (pre ++ [Ev.pause]) Config.init = some c1 →
    c1.db.session.map SessionRow.status = some SessionStatus.PAUSED →
    (∀ e ∈ mid, evEndsPause e = false) →
    runEvents env mid c1 = some c2 →
    c2.db.chunks.length = c1.db.chunks.length ∧ Ev.tick ∉ mid ∧ Ev.tickBegin ∉ mid

/-- Claim C2 as stated: from any reachable configuration directly after a
`Cancel`, later ingest and tick activity (including the completion of an
in-flight transcriber call) never creates another chunk row, and the
session stays Cancelled. -/
def claim2Statement : Prop :=
  ∀ (env : Env) (pre mid : List Ev) (c1 c2 : Config),
    runEvents env (pre ++ [Ev.cancel]) Config.init = some c1 →
    (∀ e ∈ mid, evIsLifecycle e = false) →
    runEvents env mid c1 = some c2 →
    c2.db.chunks.length = c1.db.chunks.length ∧
    c2.db.session.map SessionRow.status = some SessionStatus.CANCELLED

/-- Claim C3 as stated: `addChunk` throws the buffer-overflow error
exactly when the cumulative byte count plus the payload length exceeds
2 GiB. -/
def claim3Statement : Prop :=
  ∀ (m : Mem) (payload : Bytes) (meta : Option MetaIn),
    (addChunk m payload meta).1 = AddResult.err BUFFER_OVERFLOW_MSG ↔
      MAX_BUFFER_SIZE < m.totalSize.getD 0 + payload.length

/-- Claim C4 as stated: (a) a stitch whose hash equals the
last-transcribed hash creates no chunk row; (b) the last-transcribed
hash is updated only as part of persisting a chunk row, i.e. a
`processChunk` run that adds no chunk row leaves it unchanged. -/
def claim4Statement : Prop :=
  (∀ (env : Env) (m : Mem) (db : Db),
    m.lastHash = some (env.hash ((m.buffers.getD []).flatten)) →
    (processChunk env m db).2.2 = db) ∧
  (∀ (env : Env) (m : Mem) (db : Db),
    (processChunk env m db).2.2.chunks = db.chunks →
    (processChunk env m db).2.1.lastHash = m.lastHash)

/-- Claim C6 as stated (the refuted component): a non-retryable failure
is reported without any further transcriber attempt. -/
def claim6Statement : Prop :=
  ∀ (oracle : Nat → Except GenError String) (e : GenError),
    oracle 0 = Except.error e →
    isRetryableErr e = false →
    (transcribeAttempts oracle).1.length = 1

/-- Claim C7 as stated: when the summarizer fails during `Stop`,
finalization still completes, ending Completed with the fallback summary
and the final transcript persisted. -/
def claim7Statement : Prop :=
  ∀ (env : Env) (m : Mem) (db : Db) (s : SessionRow),
    db.session = some s →
    (∀ t, env.summarize t = none) →
    (stopRecording env m db).2.1.session.map SessionRow.status
        = some SessionStatus.COMPLETED ∧
    (stopRecording env m db).2.1.session.bind SessionRow.summary
        = some SUMMARY_FALLBACK

/-- Claim C9 as stated: a run of `n ≥ 2` immediately consecutive
identical lines keeps only the first occurrence. -/
def claim9Statement : Prop :=
  ∀ (l : String) (n : Nat), 2 ≤ n → dedupLines (List.replicate n l) = [l]

/-! ### Concrete fixtures for counterexamples and witnesses -/

/-- A fresh session row in Recording state. -/
def rowRecording : SessionRow :=
  { status := SessionStatus.RECORDING
    transcriptText := none
    summary := none
    duration := none }

/-- Database holding one recording session and no chunk rows. -/
def dbRecording : Db := { session := some rowRecording, chunks := [] }

/-- A 10000-byte fragment: the smallest batch that passes the
`MIN_CHUNK_SIZE_BYTES` gate. -/
def payload10k : Bytes := List.replicate 10000 0

/-- A 500-byte fragment: below the 1 KiB ingest guard. -/
def payload500 : Bytes := List.replicate 500 0

/-- A 2048-byte fragment: above the 1 KiB ingest guard. -/
def payload2048 : Bytes := List.replicate 2048 0

/-- Ingest metadata carrying a loud (energy 1) audio level. -/
def metaLoud : Option MetaIn := some { audioLevel := some 1, chunkId := none }

/-- Environment whose transcriber always answers `hello` and whose
summarizer always answers `summary text`; content hash = byte length. -/
def envHello : Env :=
  { hash := fun b => b.length
    transcribe := fun _ _ => some "hello"
    summarize := fun _ => some "summary text" }

/-- Environment whose transcriber always throws. -/
def envNoTranscribe : Env := { envHello with transcribe := fun _ _ => none }

/-- Environment whose summarizer always throws. -/
def envNoSummary : Env := { envHello with summarize := fun _ => none }

/-- In-memory state at the 2 GiB cap with an empty buffer list. -/
def memAtCap : Mem := { freshMem TimerSt.idle with totalSize := some MAX_BUFFER_SIZE }

/-- In-memory state holding one buffered 10000-byte fragment whose
metadata carries audio level `lvl`, timer armed. -/
def memBatch (lvl : Option ℚ) : Mem :=
  { buffers := some [payload10k]
    timer := TimerSt.armed
    startTime := some 0
    totalSize := some 10000
    fileQueue := some [payload10k]
    metadata := some [{ audioLevel := lvl, chunkId := none, size := 10000 }]
    lastHash := none }

/-- An oracle that always fails with a permanent (non-retryable) error. -/
def oraclePermanent : Nat → Except GenError String :=
  fun _ => Except.error { message := "malformed payload", retryDelaySeconds := none }

/-- An oracle whose first call hits a rate limit carrying a 7 s
server-suggested delay and whose second call succeeds. -/
def oracleRateLimited : Nat → Except GenError String :=
  fun n =>
    if n = 0 then
      Except.error { message := "429 rate limit", retryDelaySeconds := some 7 }
    else Except.ok "hi"

/-- An 18-character line, longer than the 15-character dedup threshold. -/
def longLine : String := "abcdefghijklmnopqr"

/-- The session row after a pause. -/
def rowPaused : SessionRow := { rowRecording with status := SessionStatus.PAUSED }

/-- The session row after a cancel. -/
def rowCancelled : SessionRow := { rowRecording with status := SessionStatus.CANCELLED }

/-- Database with a paused session and no chunk rows. -/
def dbPaused : Db := { session := some rowPaused, chunks := [] }

/-- Database with a cancelled session and no chunk rows. -/
def dbCancelled : Db := { session := some rowCancelled, chunks := [] }

/-- Configuration after `start-recording`. -/
def cInit1 : Config := { mem := freshMem TimerSt.idle, db := dbRecording, pending := none }

/-- Configuration after one accepted loud 10000-byte fragment. -/
def cBuf1 : Config := { mem := memBatch (some 1), db := dbRecording, pending := none }

/-- Configuration after pausing with one buffered fragment. -/
def cPausedBuf : Config :=
  { mem := { memBatch (some 1) with timer := TimerSt.idle }, db := dbPaused, pending := none }

/-- In-memory state with two buffered loud fragments. -/
def memBatch2 : Mem :=
  { buffers := some [payload10k, payload10k]
    timer := TimerSt.armed
    startTime := some 0
    totalSize := some 20000
    fileQueue := some [payload10k, payload10k]
    metadata := some [{ audioLevel := some 1, chunkId := none, size := 10000 },
      { audioLevel := some 1, chunkId := none, size := 10000 }]
    lastHash := none }

/-- Paused configuration after a second fragment arrived during the
pause (the `addChunk` call re-armed the scheduler). -/
def cPausedBuf2 : Config := { mem := memBatch2, db := dbPaused, pending := none }

/-- Configuration after the tick that fired during the pause: a chunk
row exists although the session is still Paused. -/
def cPausedTicked : Config :=
  { mem := { buffers := some []
             timer := TimerSt.armed
             startTime := some 0
             totalSize := some 20000
             fileQueue := some [payload10k, payload10k]
             metadata := some []
             lastHash := some 20000 }
    db := { session := some rowPaused
            chunks := [{ chunkIndex := 0, text := "hello", confidence := some 1 }] }
    pending := none }

/-- The in-flight transcriber call captured by the tick prologue over
one loud 10000-byte fragment. -/
def pendingHello : PendingCall :=
  { combined := payload10k, avg := some 1, fetched := some [], ctx := "" }

/-- Configuration with the transcriber call in flight. -/
def cInFlight : Config :=
  { mem := { memBatch (some 1) with
             metadata := some [], lastHash := some 10000, timer := TimerSt.stale }
    db := dbRecording
    pending := some pendingHello }

/-- Configuration after `cancel-recording` arrived while the call was
in flight: memory cleared, row Cancelled, call still pending. -/
def cCancelledInFlight : Config :=
  { mem := clearedMem, db := dbCancelled, pending := some pendingHello }

/-- Configuration after the in-flight call completed post-cancel: a
chunk row was created for the cancelled session. -/
def cAfterCancelTick : Config :=
  { mem := { buffers := some []
             timer := TimerSt.armed
             startTime := none
             totalSize := none
             fileQueue := none
             metadata := some []
             lastHash := none }
    db := { session := some rowCancelled
            chunks := [{ chunkIndex := 0, text := "hello", confidence := some 1 }] }
    pending := none }

/-- A quiet post-cancel configuration whose stale-armed timer makes a
tick possible but vacuous. -/
def cQuietTick1 : Config :=
  { mem := { clearedMem with buffers := some [], timer := TimerSt.armed }
    db := dbCancelled
    pending := none }

/-! ## Theorems -/

theorem payload500_length : payload500.length = 500 := by
  simp only [payload500, List.length_replicate]

theorem payload2048_length : payload2048.length = 2048 := by
  simp only [payload2048, List.length_replicate]

theorem payload10k_length : payload10k.length = 10000 := by
  simp only [payload10k, List.length_replicate]

/-! Characterization lemmas for the pipeline functions. -/

theorem processChunkPrologue_none (env : Env) (m : Mem) (db : Db)
    (hb : m.buffers = none) :
    processChunkPrologue env m db = ProStep.done TickResult.noBuffers m := by
  unfold processChunkPrologue
  rw [hb]

theorem processChunkPrologue_some (env : Env) (m : Mem) (db : Db) (bl : List Bytes)
    (hb : m.buffers = some bl) :
    processChunkPrologue env m db = prologueWithBuffers env m db bl := by
  unfold processChunkPrologue
  rw [hb]

theorem processChunk_done (env : Env) (m : Mem) (db : Db) (r : TickResult) (m1 : Mem)
    (h : processChunkPrologue env m db = ProStep.done r m1) :
    processChunk env m db = (r, m1, db) := by
  unfold processChunk
  rw [h]

theorem processChunk_call (env : Env) (m : Mem) (db : Db) (p : PendingCall) (m1 : Mem)
    (h : processChunkPrologue env m db = ProStep.call p m1) :
    processChunk env m db = processChunkEpilogue env p m1 db := by
  unfold processChunk
  rw [h]

theorem epilogue_failed (env : Env) (p : PendingCall) (m : Mem) (db : Db)
    (h : env.transcribe p.combined p.ctx = none) :
    processChunkEpilogue env p m db = (TickResult.transcribeFailed, m, db) := by
  unfold processChunkEpilogue
  rw [h]

theorem epilogue_missing (env : Env) (p : PendingCall) (m : Mem) (db : Db) (t : String)
    (h : env.transcribe p.combined p.ctx = some t) (hf : p.fetched = none) :
    processChunkEpilogue env p m db = (TickResult.sessionMissing, m, db) := by
  unfold processChunkEpilogue
  rw [h, hf]

theorem epilogue_committed (env : Env) (p : PendingCall) (m : Mem) (db : Db)
    (t : String) (chunks : List ChunkRow)
    (h : env.transcribe p.combined p.ctx = some t) (hf : p.fetched = some chunks) :
    processChunkEpilogue env p m db =
      (TickResult.committed { chunkIndex := chunks.length, text := t, confidence := p.avg },
        { m with buffers := some [], metadata := some [] },
        { db with chunks := db.chunks ++
            [{ chunkIndex := chunks.length, text := t, confidence := p.avg }] }) := by
  unfold processChunkEpilogue
  rw [h, hf]

/-- C8: an `AddFragment` call whose payload is shorter than 1024 bytes
returns ok and leaves the session state entirely unchanged: the fragment
is not buffered, not written to the durable store, and not counted
against the cumulative byte count. -/
theorem C8_smallFragment (m : Mem) (payload : Bytes) (meta : Option MetaIn)
    (h : payload.length < MIN_FRAGMENT_BYTES) :
    addChunk m payload meta = (AddResult.ok, m) := by
  simp [addChunk, h]

theorem C8_smallFragment_witness :
    payload500.length < MIN_FRAGMENT_BYTES ∧
      addChunk (freshMem TimerSt.idle) payload500 none
        = (AddResult.ok, freshMem TimerSt.idle) :=
  ⟨by simp [payload500_length, MIN_FRAGMENT_BYTES],
    C8_smallFragment (freshMem TimerSt.idle) payload500 none
      (by simp [payload500_length, MIN_FRAGMENT_BYTES])⟩

/-- C3 (counterexample): `addChunk` does NOT fail exactly when
`cumulative + len` exceeds 2 GiB: at cumulative exactly 2 GiB, a
500-byte payload makes `cumulative + len` exceed the cap, yet the call
returns ok because the 1 KiB silence-gate guard drops the payload before
the cap is checked. -/
theorem C3_overflow_counterexample : ¬ claim3Statement := by
  intro h
  have h1 := (h memAtCap payload500 none).2
    (by simp [memAtCap, freshMem, payload500_length, MAX_BUFFER_SIZE])
  have h2 : (addChunk memAtCap payload500 none).1 = AddResult.ok := by
    simp [addChunk, payload500_length, MIN_FRAGMENT_BYTES]
  rw [h2] at h1
  exact absurd h1 (by simp)

/-- C3 (amended): `addChunk` fails with the buffer-overflow error
exactly when the payload passes the 1 KiB guard AND the cumulative byte
count plus the payload length exceeds 2 GiB; on that failure the state
is unchanged; the cumulative count tracks the sum of stored fragment
lengths and never exceeds 2 GiB. -/
theorem C3_overflow_amended (m : Mem) (payload : Bytes) (meta : Option MetaIn) :
    ((addChunk m payload meta).1 = AddResult.err BUFFER_OVERFLOW_MSG ↔
      (MIN_FRAGMENT_BYTES ≤ payload.length ∧
        MAX_BUFFER_SIZE < m.totalSize.getD 0 + payload.length)) ∧
    ((addChunk m payload meta).1 = AddResult.err BUFFER_OVERFLOW_MSG →
      (addChunk m payload meta).2 = m) ∧
    (m.totalSize.getD 0 = memFragBytes m →
      ((addChunk m payload meta).2).totalSize.getD 0
        = memFragBytes (addChunk m payload meta).2) ∧
    (m.totalSize.getD 0 = memFragBytes m → memFragBytes m ≤ MAX_BUFFER_SIZE →
      memFragBytes (addChunk m payload meta).2 ≤ MAX_BUFFER_SIZE) := by
  by_cases h1 : payload.length < MIN_FRAGMENT_BYTES
  · have hc : addChunk m payload meta = (AddResult.ok, m) := by
      unfold addChunk
      rw [if_pos h1]
    refine ⟨?_, ?_, ?_, ?_⟩ <;> rw [hc]
    · constructor
      · intro h; exact absurd h (by simp)
      · rintro ⟨hlen, -⟩
        exact absurd hlen (by omega)
    · intro h; exact absurd h (by simp)
    · exact fun h => h
    · exact fun _ h => h
  · by_cases h2 : MAX_BUFFER_SIZE < m.totalSize.getD 0 + payload.length
    · have hc : addChunk m payload meta = (AddResult.err BUFFER_OVERFLOW_MSG, m) := by
        unfold addChunk
        rw [if_neg h1, if_pos h2]
      refine ⟨?_, ?_, ?_, ?_⟩ <;> rw [hc]
      · simp only [true_iff]
        exact ⟨by omega, h2⟩
      · exact fun _ => rfl
      · exact fun h => h
      · exact fun _ h => h
    · have hc : addChunk m payload meta =
          (AddResult.ok,
            { m with
              buffers := some ((m.buffers.getD []) ++ [payload])
              totalSize := some (m.totalSize.getD 0 + payload.length)
              metadata := some ((m.metadata.getD []) ++
                [{ audioLevel := meta.bind MetaIn.audioLevel
                   chunkId := meta.bind MetaIn.chunkId
                   size := payload.length }])
              fileQueue := some ((m.fileQueue.getD []) ++ [payload])
              timer := if m.timer = TimerSt.idle then TimerSt.armed else m.timer }) := by
        unfold addChunk
        rw [if_neg h1, if_neg h2]
      have hsum2 : memFragBytes (addChunk m payload meta).2
          = memFragBytes m + payload.length := by
        rw [hc]
        simp [memFragBytes]
      refine ⟨?_, ?_, ?_, ?_⟩
      · rw [hc]
        constructor
        · intro h; exact absurd h (by simp)
        · rintro ⟨-, hover⟩
          exact absurd hover h2
      · rw [hc]
        intro h; exact absurd h (by simp)
      · intro hsum
        rw [hsum2, hc]
        simpa using hsum
      · intro hsum hcap
        rw [hsum2]
        omega

theorem C3_overflow_amended_witness :
    (addChunk memAtCap payload2048 none).1 = AddResult.err BUFFER_OVERFLOW_MSG ∧
      (addChunk memAtCap payload2048 none).2 = memAtCap := by
  have hcond : MIN_FRAGMENT_BYTES ≤ payload2048.length ∧
      MAX_BUFFER_SIZE < memAtCap.totalSize.getD 0 + payload2048.length := by
    simp [memAtCap, freshMem, payload2048_length, MIN_FRAGMENT_BYTES, MAX_BUFFER_SIZE]
  have herr := (C3_overflow_amended memAtCap payload2048 none).1.mpr hcond
  exact ⟨herr, (C3_overflow_amended memAtCap payload2048 none).2.1 herr⟩

/-- C10: when no fragment of a batch carries a client-supplied energy
value -- as with the deployed `audio-chunk` handler, whose schema has no
energy field, so `addChunk` is called without metadata and records
`audioLevel = none` -- the computed average energy is `some 0` rather
than `none`, and every such batch whose combined size is below 40000
bytes is skipped (by the size gate or the silence gate) and produces no
chunk row. -/
theorem C10_defaultEnergy (env : Env) (m : Mem) (db : Db) (bl : List Bytes)
    (hb : m.buffers = some bl) (hne : bl ≠ [])
    (hmeta : ∀ e ∈ (m.metadata.getD []).take bl.length, e.audioLevel = none)
    (hmne : (m.metadata.getD []).take bl.length ≠ [])
    (hsize : bl.flatten.length < MIN_CHUNK_SIZE_BYTES * 4) :
    averageAudioLevel ((m.metadata.getD []).take bl.length) = some 0 ∧
    (processChunk env m db).2.2 = db ∧
    ((processChunk env m db).1 = TickResult.skipSmall ∨
      (processChunk env m db).1 = TickResult.skipSilence) ∧
    (∀ (m1 : Mem) (p : Bytes), MIN_FRAGMENT_BYTES ≤ p.length →
      m1.totalSize.getD 0 + p.length ≤ MAX_BUFFER_SIZE →
      ((addChunk m1 p none).2).metadata = some ((m1.metadata.getD []) ++
        [{ audioLevel := none, chunkId := none, size := p.length }])) := by
  have havg : averageAudioLevel ((m.metadata.getD []).take bl.length) = some 0 := by
    unfold averageAudioLevel
    rw [if_pos (List.length_pos.mpr hmne)]
    have hz : ((((m.metadata.getD []).take bl.length).map
        (fun e => e.audioLevel.getD 0)).sum : ℚ) = 0 := by
      apply List.sum_eq_zero
      intro x hx
      rcases List.mem_map.mp hx with ⟨e, he, rfl⟩
      rw [hmeta e he]
      rfl
    rw [hz]
    simp
  have hblen : ¬ (bl.length = 0) := fun h0 => hne (List.length_eq_zero.mp h0)
  have hchar : processChunk env m db = (TickResult.skipSmall, afterSkipMem m, db) ∨
      processChunk env m db = (TickResult.skipSilence, afterSkipMem m, db) := by
    have hpro := processChunkPrologue_some env m db bl hb
    by_cases hsmall : bl.flatten.length < MIN_CHUNK_SIZE_BYTES
    · left
      apply processChunk_done
      rw [hpro]
      unfold prologueWithBuffers
      rw [if_neg hblen, if_pos hsmall]
    · right
      apply processChunk_done
      rw [hpro]
      unfold prologueWithBuffers
      rw [if_neg hblen, if_neg hsmall, if_pos ?_]
      rw [havg]
      unfold silenceGate
      simp only [Bool.and_eq_true, decide_eq_true_eq]
      exact ⟨by norm_num, hsize⟩
  refine ⟨havg, ?_, ?_, ?_⟩
  · rcases hchar with hc | hc <;> rw [hc]
  · rcases hchar with hc | hc <;> rw [hc]
    · exact Or.inl rfl
    · exact Or.inr rfl
  · intro m1 p hlen hcap
    unfold addChunk
    rw [if_neg (by omega), if_neg (by omega)]
    rfl

theorem C10_defaultEnergy_witness :
    averageAudioLevel (((memBatch none).metadata.getD []).take 1) = some 0 ∧
      (processChunk envHello (memBatch none) dbRecording).2.2 = dbRecording := by
  have h := C10_defaultEnergy envHello (memBatch none) dbRecording [payload10k]
    rfl (by simp) (by simp [memBatch]) (by simp [memBatch])
    (by simp [payload10k_length, MIN_CHUNK_SIZE_BYTES])
  exact ⟨h.1, h.2.1⟩

/-- The epilogue of `processChunk` never touches `lastChunkHashes`. -/
theorem epilogue_lastHash (env : Env) (p : PendingCall) (m : Mem) (db : Db) :
    (processChunkEpilogue env p m db).2.1.lastHash = m.lastHash := by
  unfold processChunkEpilogue
  rcases ht : env.transcribe p.combined p.ctx with _ | t
  · rfl
  · rcases hf : p.fetched with _ | chunks <;> rfl

/-- C4 (counterexample): the last-transcribed hash is NOT updated as
part of persisting a chunk row.  With a transcriber that throws, a
`processChunk` run adds no chunk row, yet the stored hash changes from
`none` to the hash of the stitched bytes: the source updates
`lastChunkHashes` before the transcriber call. -/
theorem C4_duplicateHash_counterexample : ¬ claim4Statement := by
  intro h
  have hc : processChunk envNoTranscribe (memBatch (some 1)) dbRecording
      = (TickResult.transcribeFailed,
          { memBatch (some 1) with metadata := some [], lastHash := some 10000 },
          dbRecording) := by
    simp [processChunk, processChunkPrologue, prologueWithBuffers, processChunkEpilogue,
      memBatch, averageAudioLevel, silenceGate, contextFor, buildContext,
      envNoTranscribe, envHello, dbRecording, rowRecording, payload10k_length,
      MIN_CHUNK_SIZE_BYTES]
    norm_num
  have h2 := h.2 envNoTranscribe (memBatch (some 1)) dbRecording (by rw [hc])
  rw [hc] at h2
  simp [memBatch] at h2

/-- C4 (amended): duplicate suppression holds -- equal hashes mean no
new chunk row and an unchanged database -- but the last-transcribed
hash is updated before the transcriber call, not as part of persisting:
every run that passes the gates stores the stitched hash, even when the
transcription then fails or the session row is missing and no chunk row
is created; runs that end at a gate leave the hash unchanged. -/
theorem C4_duplicateHash_amended (env : Env) (m : Mem) (db : Db) :
    (m.lastHash = some (env.hash ((m.buffers.getD []).flatten)) →
      (processChunk env m db).2.2 = db) ∧
    (∀ r m1, processChunkPrologue env m db = ProStep.done r m1 →
      m1.lastHash = m.lastHash ∧ (processChunk env m db).2.2 = db) ∧
    (∀ p m1, processChunkPrologue env m db = ProStep.call p m1 →
      m1.lastHash = some (env.hash ((m.buffers.getD []).flatten)) ∧
      (processChunk env m db).2.1.lastHash
        = some (env.hash ((m.buffers.getD []).flatten))) := by
  have hdone : ∀ r m1, processChunkPrologue env m db = ProStep.done r m1 →
      m1.lastHash = m.lastHash ∧ (processChunk env m db).2.2 = db := by
    intro r m1 hpro
    refine ⟨?_, by rw [processChunk_done env m db r m1 hpro]⟩
    rcases hb : m.buffers with _ | bl
    · rw [processChunkPrologue_none env m db hb] at hpro
      cases hpro
      rfl
    · rw [processChunkPrologue_some env m db bl hb] at hpro
      unfold prologueWithBuffers at hpro
      split_ifs at hpro <;> cases hpro <;> rfl
  have hcall : ∀ p m1, processChunkPrologue env m db = ProStep.call p m1 →
      m1.lastHash = some (env.hash ((m.buffers.getD []).flatten)) := by
    intro p m1 hpro
    rcases hb : m.buffers with _ | bl
    · rw [processChunkPrologue_none env m db hb] at hpro
      cases hpro
    · rw [processChunkPrologue_some env m db bl hb] at hpro
      unfold prologueWithBuffers at hpro
      split_ifs at hpro
      cases hpro
      rw [hb]
      rfl
  refine ⟨?_, hdone, ?_⟩
  · intro hdup
    rcases hpro : processChunkPrologue env m db with ⟨r, m1⟩ | ⟨p, m1⟩
    · exact (hdone r m1 hpro).2
    · exfalso
      rcases hb : m.buffers with _ | bl
      · rw [processChunkPrologue_none env m db hb] at hpro
        cases hpro
      · rw [processChunkPrologue_some env m db bl hb] at hpro
        unfold prologueWithBuffers at hpro
        rw [hb] at hdup
        split_ifs at hpro with h1 h2 h3 h4
        · exact h4 (by simpa using hdup)
  · intro p m1 hpro
    refine ⟨hcall p m1 hpro, ?_⟩
    rw [processChunk_call env m db p m1 hpro, epilogue_lastHash]
    exact hcall p m1 hpro

theorem C4_duplicateHash_amended_witness :
    (processChunk envHello { memBatch (some 1) with lastHash := some 10000 }
        dbRecording).2.2 = dbRecording :=
  (C4_duplicateHash_amended envHello { memBatch (some 1) with lastHash := some 10000 }
      dbRecording).1
    (by simp [memBatch, envHello, payload10k_length])

theorem stopFinalize_noSession (env : Env) (db1 : Db) (hs : db1.session = none) :
    stopFinalize env db1 = (clearedMem, db1, StopOutcome.errNoSession) := by
  unfold stopFinalize
  rw [hs]

theorem stopFinalize_noSummary (env : Env) (db1 : Db) (srow : SessionRow)
    (hs : db1.session = some srow)
    (hsum : env.summarize (fullTranscriptOf db1.chunks) = none) :
    stopFinalize env db1 =
      (clearedMem,
        { db1 with session := some { srow with status := SessionStatus.PROCESSING } },
        StopOutcome.errSummarize) := by
  unfold stopFinalize
  rw [hs, hsum]

theorem stopFinalize_summary (env : Env) (db1 : Db) (srow : SessionRow) (summary : String)
    (hs : db1.session = some srow)
    (hsum : env.summarize (fullTranscriptOf db1.chunks) = some summary) :
    stopFinalize env db1 =
      (clearedMem,
        { db1 with session := some { srow with
            status := SessionStatus.COMPLETED
            transcriptText := some (fullTranscriptOf db1.chunks)
            summary := some summary
            duration := none } },
        StopOutcome.ok (fullTranscriptOf db1.chunks) summary) := by
  unfold stopFinalize
  rw [hs, hsum]

/-- Shape of a `stopFinalize` run that returned ok. -/
theorem stopFinalize_ok_shape (env : Env) (db1 : Db) (t s : String)
    (h : (stopFinalize env db1).2.2 = StopOutcome.ok t s) :
    (stopFinalize env db1).1 = clearedMem ∧
    env.summarize t = some s ∧
    t = fullTranscriptOf db1.chunks ∧
    (stopFinalize env db1).2.1.chunks = db1.chunks ∧
    (stopFinalize env db1).2.1.session
      = some { status := SessionStatus.COMPLETED, transcriptText := some t,
               summary := some s, duration := none } := by
  rcases hs : db1.session with _ | srow
  · rw [stopFinalize_noSession env db1 hs] at h
    exact absurd h (by simp)
  · rcases hsum : env.summarize (fullTranscriptOf db1.chunks) with _ | summary
    · rw [stopFinalize_noSummary env db1 srow hs hsum] at h
      exact absurd h (by simp)
    · have hfin := stopFinalize_summary env db1 srow summary hs hsum
      rw [hfin] at h
      simp only [StopOutcome.ok.injEq] at h
      obtain ⟨rfl, rfl⟩ := h
      rw [hfin]
      exact ⟨rfl, hsum, rfl, rfl, rfl⟩

theorem stopRecording_noDrain (env : Env) (m : Mem) (db : Db)
    (h : stopDrains m = false) :
    stopRecording env m db = stopFinalize env db := by
  unfold stopRecording
  rw [h]
  simp

theorem stopRecording_drain_failed (env : Env) (m : Mem) (db : Db)
    (hd : stopDrains m = true)
    (hf : (processChunk env m db).1 = TickResult.transcribeFailed) :
    stopRecording env m db
      = ((processChunk env m db).2.1, db, StopOutcome.errTranscribe) := by
  unfold stopRecording
  rw [hd, hf]
  simp

theorem stopRecording_drain_ok (env : Env) (m : Mem) (db : Db)
    (hd : stopDrains m = true)
    (hf : (processChunk env m db).1 ≠ TickResult.transcribeFailed) :
    stopRecording env m db = stopFinalize env (processChunk env m db).2.2 := by
  unfold stopRecording
  rw [hd, if_neg hf]
  simp

/-- Shape of a `stopRecording` run that returned ok. -/
theorem stopRecording_ok_shape (env : Env) (m : Mem) (db : Db) (t s : String)
    (h : (stopRecording env m db).2.2 = StopOutcome.ok t s) :
    (stopRecording env m db).1 = clearedMem ∧
    env.summarize t = some s ∧
    t = fullTranscriptOf (stopRecording env m db).2.1.chunks ∧
    (stopRecording env m db).2.1.session
      = some { status := SessionStatus.COMPLETED, transcriptText := some t,
               summary := some s, duration := none } := by
  by_cases hd : stopDrains m = true
  · by_cases hf : (processChunk env m db).1 = TickResult.transcribeFailed
    · rw [stopRecording_drain_failed env m db hd hf] at h
      exact absurd h (by simp)
    · have heq := stopRecording_drain_ok env m db hd hf
      rw [heq] at h
      obtain ⟨hm, hsum, ht, hch, hsess⟩ :=
        stopFinalize_ok_shape env (processChunk env m db).2.2 t s h
      rw [heq]
      exact ⟨hm, hsum, by rw [hch, ← ht], hsess⟩
  · have heq := stopRecording_noDrain env m db (by simpa using hd)
    rw [heq] at h
    obtain ⟨hm, hsum, ht, hch, hsess⟩ := stopFinalize_ok_shape env db t s h
    rw [heq]
    exact ⟨hm, hsum, by rw [hch, ← ht], hsess⟩

/-- C5: `Cancel` twice, or `Stop` again after a completed `Stop`, leaves
the persisted session row (status, transcript, summary, duration)
identical to the state after the first call.  The summarizer is a fixed
function of the transcript, so the repeated `Stop` regenerates the same
summary. -/
theorem C5_idempotence (env : Env) (m : Mem) (db : Db) :
    ((cancelRecording (cancelRecording m db).1 (cancelRecording m db).2).2).session
      = ((cancelRecording m db).2).session ∧
    (∀ t s, (stopRecording env m db).2.2 = StopOutcome.ok t s →
      ((stopRecording env (stopRecording env m db).1
          ((stopRecording env m db).2.1)).2.1).session
        = ((stopRecording env m db).2.1).session) := by
  constructor
  · rcases hs : db.session with _ | srow
    · simp [cancelRecording, hs]
    · simp [cancelRecording, hs]
  · intro t s hok
    obtain ⟨hm1, hsum, ht, hsess⟩ := stopRecording_ok_shape env m db t s hok
    rw [hm1]
    rw [stopRecording_noDrain env clearedMem ((stopRecording env m db).2.1) rfl]
    rw [stopFinalize_summary env ((stopRecording env m db).2.1)
      { status := SessionStatus.COMPLETED, transcriptText := some t,
        summary := some s, duration := none } s hsess (by rw [← ht]; exact hsum)]
    rw [hsess, ← ht]

theorem C5_idempotence_witness :
    (stopRecording envHello (freshMem TimerSt.idle) dbRecording).2.2
        = StopOutcome.ok "" "summary text" ∧
      ((stopRecording envHello (stopRecording envHello (freshMem TimerSt.idle) dbRecording).1
          ((stopRecording envHello (freshMem TimerSt.idle) dbRecording).2.1)).2.1).session
        = ((stopRecording envHello (freshMem TimerSt.idle) dbRecording).2.1).session := by
  have hfirst : (stopRecording envHello (freshMem TimerSt.idle) dbRecording).2.2
      = StopOutcome.ok "" "summary text" := by
    simp [stopRecording, stopDrains, freshMem, stopFinalize, dbRecording, rowRecording,
      envHello, fullTranscriptOf, validChunkTexts, String.intercalate]
  exact ⟨hfirst,
    (C5_idempotence envHello (freshMem TimerSt.idle) dbRecording).2 "" "summary text" hfirst⟩

/-- C7 (counterexample): when the summarizer throws during `Stop`,
finalization does NOT complete: `stopRecording` propagates the error,
the session row is left in `PROCESSING` (not `COMPLETED`) and neither a
transcript nor the fallback summary is persisted.  The fallback summary
string is produced inside `generateSummary` only when the API call
succeeds with an empty cleaned text, not when it fails. -/
theorem C7_summaryFallback_counterexample : ¬ claim7Statement := by
  intro h
  have h1 := (h envNoSummary (freshMem TimerSt.idle) dbRecording rowRecording rfl
    (fun _ => rfl)).1
  have hc : (stopRecording envNoSummary (freshMem TimerSt.idle)
        dbRecording).2.1.session.map SessionRow.status
      = some SessionStatus.PROCESSING := by
    rw [stopRecording_noDrain envNoSummary (freshMem TimerSt.idle) dbRecording rfl]
    rw [stopFinalize_noSummary envNoSummary dbRecording rowRecording rfl rfl]
    rfl
  rw [hc] at h1
  exact absurd h1 (by simp)

/-- C7 (amended): when the summarizer API call fails, `Stop` throws and
leaves the session in `PROCESSING` with no transcript or summary
persisted; the fallback summary
`"Summary could not be generated from the transcript."` is produced only
when the API call succeeds but the scrubbed summary text is empty, in
which case finalization completes in `COMPLETED` with that fallback and
the transcript persisted. -/
theorem C7_summaryFallback_amended (api : String → Option String)
    (scrub : String → String → String) (hashf : Bytes → Nat)
    (transf : Bytes → String → Option String) (m : Mem) (db : Db) (s : SessionRow)
    (hs : db.session = some s) (hm : stopDrains m = false) :
    (api (fullTranscriptOf db.chunks) = none →
      stopRecording
          { hash := hashf
            transcribe := transf
            summarize := generateSummary api scrub } m db
        = (clearedMem,
            { db with session := some { s with status := SessionStatus.PROCESSING } },
            StopOutcome.errSummarize)) ∧
    (∀ t, api (fullTranscriptOf db.chunks) = some t →
      ((scrub (fullTranscriptOf db.chunks) t).trim).length = 0 →
      stopRecording
          { hash := hashf
            transcribe := transf
            summarize := generateSummary api scrub } m db
        = (clearedMem,
            { db with session := some { s with
                status := SessionStatus.COMPLETED
                transcriptText := some (fullTranscriptOf db.chunks)
                summary := some SUMMARY_FALLBACK
                duration := none } },
            StopOutcome.ok (fullTranscriptOf db.chunks) SUMMARY_FALLBACK)) := by
  constructor
  · intro hapi
    rw [stopRecording_noDrain _ m db hm]
    apply stopFinalize_noSummary _ db s hs
    show generateSummary api scrub (fullTranscriptOf db.chunks) = none
    unfold generateSummary
    rw [hapi]
  · intro t hapi htrim
    rw [stopRecording_noDrain _ m db hm]
    apply stopFinalize_summary _ db s SUMMARY_FALLBACK hs
    show generateSummary api scrub (fullTranscriptOf db.chunks) = some SUMMARY_FALLBACK
    unfold generateSummary
    rw [hapi]
    simp [htrim]

theorem C7_summaryFallback_amended_witness :
    stopRecording
        { hash := fun b => b.length
          transcribe := fun _ _ => some "hello"
          summarize := generateSummary (fun _ => none) (fun _ x => x) }
        (freshMem TimerSt.idle) dbRecording
      = (clearedMem,
          { dbRecording with
            session := some { rowRecording with status := SessionStatus.PROCESSING } },
          StopOutcome.errSummarize) :=
  (C7_summaryFallback_amended (fun _ => none) (fun _ x => x) (fun b => b.length)
    (fun _ _ => some "hello") (freshMem TimerSt.idle) dbRecording rowRecording
    rfl rfl).1 rfl

theorem lowerStr_length (s : String) : (lowerStr s).length = s.length := by
  unfold lowerStr
  show (s.toList.map Char.toLower).length = s.length
  rw [List.length_map]
  rfl

/-- Once the duplicate counter is positive, a continuing run of the same
long line is dropped entirely. -/
theorem dedupGo_dup_skip (l : String) (hlen : 15 < l.length) :
    ∀ (k c : Nat), dedupGo (List.replicate k l) l (c + 1) = [] := by
  intro k
  induction k with
  | zero => intro c; rfl
  | succ n ih =>
    intro c
    rw [List.replicate_succ]
    simp only [dedupGo]
    rw [if_pos (by simp [lowerStr_length, hlen]), if_pos (by omega)]
    exact ih (c + 1)

/-- C9 (counterexample): a run of exactly two identical (long) lines is
left untouched: the loop drops a duplicate only from the third
occurrence on (`consecutiveDuplicates >= 2`). -/
theorem C9_dedup_counterexample : ¬ claim9Statement := by
  intro h
  have h2 := h longLine 2 (le_refl 2)
  have hc : dedupLines (List.replicate 2 longLine) = [longLine, longLine] := by decide
  rw [hc] at h2
  exact absurd h2 (by decide)

/-- C9 (amended): for a run of `n ≥ 2` immediately consecutive identical
lines longer than 15 characters, the first two occurrences are kept and
occurrences from the third on are dropped; lines of 15 characters or
fewer are never deduplicated. -/
theorem C9_dedup_amended (l : String) (n : Nat) :
    (2 ≤ n → 15 < l.length → dedupLines (List.replicate n l) = [l, l]) ∧
    (l.length ≤ 15 → dedupLines (List.replicate n l) = List.replicate n l) := by
  constructor
  · intro hn hlen
    obtain ⟨k, rfl⟩ : ∃ k, n = k + 2 := ⟨n - 2, by omega⟩
    unfold dedupLines
    rw [show k + 2 = (k + 1) + 1 from rfl, List.replicate_succ, List.replicate_succ]
    simp only [dedupGo]
    rw [if_neg (by
      simp only [Bool.and_eq_true, decide_eq_true_eq, not_and]
      intro h1 _
      have hl := congrArg String.length h1
      rw [lowerStr_length, lowerStr_length] at hl
      simp at hl
      omega)]
    rw [if_pos (by simp [lowerStr_length, hlen]), if_neg (by omega)]
    rw [dedupGo_dup_skip l hlen k 0]
  · intro hlen
    have hgo : ∀ (k : Nat) (lastLine : String) (c : Nat),
        dedupGo (List.replicate k l) lastLine c = List.replicate k l := by
      intro k
      induction k with
      | zero => intro _ _; rfl
      | succ n ih =>
        intro lastLine c
        rw [List.replicate_succ]
        simp only [dedupGo]
        rw [if_neg (by
          simp only [Bool.and_eq_true, decide_eq_true_eq, not_and]
          intro _ h2
          rw [lowerStr_length] at h2
          omega)]
        rw [ih l 0]
    exact hgo n "" 0

theorem C9_dedup_amended_witness :
    dedupLines (List.replicate 3 longLine) = [longLine, longLine] ∧
      dedupLines (List.replicate 3 "short") = List.replicate 3 "short" :=
  ⟨(C9_dedup_amended longLine 3).1 (by norm_num) (by decide),
    (C9_dedup_amended "short" 3).2 (by decide)⟩

/-- Trace properties of the retry loop, by induction on the remaining
fuel: the number of calls is bounded by the fuel; a back-off sleep after
attempt `i` happens exactly on a retryable failure before the last
attempt, with the delay computed by `retryDelayMsFor`; an immediate
retry happens on a failure at a non-final attempt whose back-off branch
was not taken.  All recorded attempt indices lie in
`[attempt, attempt + fuel)`. -/
theorem retryLoop_spec (oracle : Nat → Except GenError String) :
    ∀ (fuel attempt : Nat),
      (retryLoopFrom oracle fuel attempt).1.length ≤ fuel ∧
      (∀ i d, AttemptEv.sleepRetry i d ∈ (retryLoopFrom oracle fuel attempt).1 →
        ∃ e, oracle i = Except.error e ∧ isRetryableErr e = true ∧
          i < maxRetries - 1 ∧ d = retryDelayMsFor e i ∧ i < attempt + fuel) ∧
      (∀ i, AttemptEv.immediateRetry i ∈ (retryLoopFrom oracle fuel attempt).1 →
        ∃ e, oracle i = Except.error e ∧ i ≠ maxRetries - 1 ∧
          (isRetryableErr e = false ∨ ¬ i < maxRetries - 1) ∧ i < attempt + fuel) := by
  intro fuel
  induction fuel with
  | zero =>
    intro attempt
    refine ⟨by simp [retryLoopFrom], ?_, ?_⟩
    · intro i d hmem
      simp [retryLoopFrom] at hmem
    · intro i hmem
      simp [retryLoopFrom] at hmem
  | succ n ih =>
    intro attempt
    obtain ⟨ihl, ihs, ihi⟩ := ih (attempt + 1)
    rcases ho : oracle attempt with e | t
    case ok =>
      refine ⟨by simp [retryLoopFrom, ho], ?_, ?_⟩
      · intro i d hmem
        simp [retryLoopFrom, ho] at hmem
      · intro i hmem
        simp [retryLoopFrom, ho] at hmem
    case error =>
      by_cases hc1 : (isRetryableErr e && decide (attempt < maxRetries - 1)) = true
      · obtain ⟨hre, hltb⟩ := Bool.and_eq_true_iff.mp hc1
        have hlt : attempt < maxRetries - 1 := of_decide_eq_true hltb
        refine ⟨?_, ?_, ?_⟩
        · simp only [retryLoopFrom, ho, hc1, if_true, List.length_cons]
          omega
        · intro i d hmem
          simp only [retryLoopFrom, ho, hc1, if_true, List.mem_cons] at hmem
          rcases hmem with heq | hmem
          · obtain ⟨rfl, rfl⟩ : i = attempt ∧ d = retryDelayMsFor e attempt := by
              cases heq
              exact ⟨rfl, rfl⟩
            exact ⟨e, ho, hre, hlt, rfl, by omega⟩
          · obtain ⟨e1, h1, h2, h3, h4, h5⟩ := ihs i d hmem
            exact ⟨e1, h1, h2, h3, h4, by omega⟩
        · intro i hmem
          simp only [retryLoopFrom, ho, hc1, if_true, List.mem_cons] at hmem
          rcases hmem with heq | hmem
          · cases heq
          · obtain ⟨e1, h1, h2, h3, h4⟩ := ihi i hmem
            exact ⟨e1, h1, h2, h3, by omega⟩
      · by_cases hc2 : attempt = maxRetries - 1
        · subst hc2
          have hthrew : retryLoopFrom oracle (n + 1) (maxRetries - 1)
              = ([AttemptEv.threw (maxRetries - 1)], Except.error e) := by
            simp [retryLoopFrom, ho, hc1]
          refine ⟨?_, ?_, ?_⟩
          · rw [hthrew]
            simp
          · intro i d hmem
            rw [hthrew] at hmem
            simp at hmem
          · intro i hmem
            rw [hthrew] at hmem
            simp at hmem
        · have hsplit : isRetryableErr e = false ∨ ¬ attempt < maxRetries - 1 := by
            cases hb : isRetryableErr e with
            | false => exact Or.inl rfl
            | true =>
              right
              intro hl
              apply hc1
              rw [hb, decide_eq_true hl]
              rfl
          have himm : retryLoopFrom oracle (n + 1) attempt
              = (AttemptEv.immediateRetry attempt
                    :: (retryLoopFrom oracle n (attempt + 1)).1,
                  (retryLoopFrom oracle n (attempt + 1)).2) := by
            simp [retryLoopFrom, ho, hc1, hc2]
          refine ⟨?_, ?_, ?_⟩
          · rw [himm]
            simp only [List.length_cons]
            omega
          · intro i d hmem
            rw [himm] at hmem
            simp only [List.mem_cons] at hmem
            rcases hmem with heq | hmem
            · cases heq
            · obtain ⟨e1, h1, h2, h3, h4, h5⟩ := ihs i d hmem
              exact ⟨e1, h1, h2, h3, h4, by omega⟩
          · intro i hmem
            rw [himm] at hmem
            simp only [List.mem_cons] at hmem
            rcases hmem with heq | hmem
            · obtain rfl : i = attempt := by
                cases heq
                rfl
              exact ⟨e, ho, hc2, hsplit, by omega⟩
            · obtain ⟨e1, h1, h2, h3, h4⟩ := ihi i hmem
              exact ⟨e1, h1, h2, h3, by omega⟩

/-- C6 (counterexample): a non-retryable failure is NOT reported without
further attempts: the `else` branch of the retry loop neither sleeps nor
exits the loop before the last attempt, so a permanently failing call is
made 3 times, not once. -/
theorem C6_retry_counterexample : ¬ claim6Statement := by
  intro h
  have h1 := h oraclePermanent { message := "malformed payload", retryDelaySeconds := none }
    rfl (by decide)
  exact absurd h1 (by decide)

/-- C6 (amended): the transcriber is called at most 3 times per chunk.
A back-off sleep before the next attempt happens exactly when the
failure is retryable (timeout / network / 500 / 503 / rate-limit
message) and the attempt is not the last; its delay is
`2000 * 2 ^ attempt`, overridden by the server-suggested `RetryInfo`
delay when the error is a rate limit that carries one.  Non-retryable
failures are, however, also retried -- immediately, with no sleep --
until the third attempt fails and the error is thrown. -/
theorem C6_retry_amended (oracle : Nat → Except GenError String) :
    (transcribeAttempts oracle).1.length ≤ maxRetries ∧
    (∀ i d, AttemptEv.sleepRetry i d ∈ (transcribeAttempts oracle).1 →
      ∃ e, oracle i = Except.error e ∧ isRetryableErr e = true ∧
        i < maxRetries - 1 ∧ d = retryDelayMsFor e i) ∧
    (∀ i, AttemptEv.immediateRetry i ∈ (transcribeAttempts oracle).1 →
      ∃ e, oracle i = Except.error e ∧ isRetryableErr e = false ∧
        i < maxRetries - 1) := by
  obtain ⟨hl, hs, hi⟩ := retryLoop_spec oracle maxRetries 0
  refine ⟨hl, ?_, ?_⟩
  · intro i d hmem
    obtain ⟨e, h1, h2, h3, h4, h5⟩ := hs i d hmem
    exact ⟨e, h1, h2, h3, h4⟩
  · intro i hmem
    obtain ⟨e, h1, h2, h3, h4⟩ := hi i hmem
    have hlt : i < maxRetries - 1 := by
      have : maxRetries = 3 := rfl
      omega
    rcases h3 with h3 | h3
    · exact ⟨e, h1, h3, hlt⟩
    · exact absurd hlt h3

theorem C6_retry_amended_witness :
    AttemptEv.sleepRetry 0 7000 ∈ (transcribeAttempts oracleRateLimited).1 ∧
      ∃ e, oracleRateLimited 0 = Except.error e ∧ isRetryableErr e = true ∧
        0 < maxRetries - 1 ∧ 7000 = retryDelayMsFor e 0 :=
  ⟨by decide, (C6_retry_amended oracleRateLimited).2.1 0 7000 (by decide)⟩

/-! Shape lemmas for the lifecycle operations, used by the trace
invariants of C1 and C2. -/

theorem initializeSession_mem (m : Mem) (db : Db) :
    (initializeSession m db).1 = freshMem m.timer := by
  unfold initializeSession
  rcases db.session <;> rfl

theorem initializeSession_chunks (m : Mem) (db : Db) :
    (initializeSession m db).2.1.chunks = db.chunks := by
  unfold initializeSession
  rcases db.session <;> rfl

theorem pauseRecording_mem (m : Mem) (db : Db) :
    (pauseRecording m db).1 = { m with timer := TimerSt.idle } := by
  unfold pauseRecording
  rcases db.session <;> rfl

theorem pauseRecording_chunks (m : Mem) (db : Db) :
    (pauseRecording m db).2.1.chunks = db.chunks := by
  unfold pauseRecording
  rcases db.session <;> rfl

theorem resumeRecording_buffers (m : Mem) (db : Db) :
    (resumeRecording m db).1.buffers = m.buffers := by
  unfold resumeRecording
  rcases db.session <;> rfl

theorem resumeRecording_chunks (m : Mem) (db : Db) :
    (resumeRecording m db).2.1.chunks = db.chunks := by
  unfold resumeRecording
  rcases db.session <;> rfl

theorem cancelRecording_mem (m : Mem) (db : Db) :
    (cancelRecording m db).1 = clearedMem := by
  unfold cancelRecording
  rcases db.session <;> rfl

theorem cancelRecording_chunks (m : Mem) (db : Db) :
    (cancelRecording m db).2.chunks = db.chunks := by
  unfold cancelRecording
  rcases db.session <;> rfl

theorem stopFinalize_mem (env : Env) (db1 : Db) :
    (stopFinalize env db1).1 = clearedMem := by
  unfold stopFinalize
  rcases db1.session with _ | srow
  · rfl
  · rcases env.summarize (fullTranscriptOf db1.chunks) <;> rfl

theorem stopFinalize_chunks (env : Env) (db1 : Db) :
    (stopFinalize env db1).2.1.chunks = db1.chunks := by
  unfold stopFinalize
  rcases db1.session with _ | srow
  · rfl
  · rcases env.summarize (fullTranscriptOf db1.chunks) <;> rfl

theorem stopDrains_quiet (m : Mem)
    (h : m.buffers = none ∨ m.buffers = some []) : stopDrains m = false := by
  rcases h with h | h <;> simp [stopDrains, h]

/-- One step while the scheduler is disarmed: any event other than an
ingest, a resume or a stop keeps the scheduler disarmed, keeps nothing
in flight, changes no chunk rows, and cannot be a tick. -/
theorem stepEv_quietPause (env : Env) (e : Ev) (c c1 : Config)
    (hadd : evIsAdd e = false) (hres : e ≠ Ev.resume) (hstop : e ≠ Ev.stop)
    (ht : c.mem.timer ≠ TimerSt.armed) (hp : c.pending = none)
    (hs : stepEv env e c = some c1) :
    c1.mem.timer ≠ TimerSt.armed ∧ c1.pending = none ∧ c1.db.chunks = c.db.chunks ∧
      e ≠ Ev.tick ∧ e ≠ Ev.tickBegin ∧ e ≠ Ev.tickFinish := by
  have hcond : (c.mem.timer = TimerSt.armed && c.pending.isNone) = false := by
    simp [ht]
  cases e with
  | init =>
    simp only [stepEv] at hs
    obtain rfl := Option.some.inj hs
    refine ⟨?_, hp, initializeSession_chunks c.mem c.db, by simp, by simp, by simp⟩
    rw [initializeSession_mem]
    exact ht
  | add payload meta => exact absurd hadd (by simp [evIsAdd])
  | tick =>
    simp only [stepEv, hcond] at hs
    exact absurd hs (by simp)
  | tickBegin =>
    simp only [stepEv, hcond] at hs
    exact absurd hs (by simp)
  | tickFinish =>
    simp only [stepEv, hp] at hs
    exact absurd hs (by simp)
  | pause =>
    simp only [stepEv] at hs
    obtain rfl := Option.some.inj hs
    refine ⟨?_, hp, pauseRecording_chunks c.mem c.db, by simp, by simp, by simp⟩
    rw [pauseRecording_mem]
    simp
  | resume => exact absurd rfl hres
  | stop => exact absurd rfl hstop
  | cancel =>
    simp only [stepEv] at hs
    obtain rfl := Option.some.inj hs
    refine ⟨?_, hp, cancelRecording_chunks c.mem c.db, by simp, by simp, by simp⟩
    rw [cancelRecording_mem]
    simp [clearedMem]

theorem stepEv_tick_run (env : Env) (c : Config)
    (h : (c.mem.timer = TimerSt.armed && c.pending.isNone) = true) :
    stepEv env Ev.tick c
      = some { mem := { (processChunk env c.mem c.db).2.1 with
                 timer := afterTickTimer (processChunk env c.mem c.db).1 TimerSt.stale
                   (processChunk env c.mem c.db).2.1 }
               db := (processChunk env c.mem c.db).2.2
               pending := none } := by
  unfold stepEv
  rw [if_pos h]

theorem stepEv_tickBegin_call (env : Env) (c : Config) (p : PendingCall) (m1 : Mem)
    (hc : (c.mem.timer = TimerSt.armed && c.pending.isNone) = true)
    (h : processChunkPrologue env c.mem c.db = ProStep.call p m1) :
    stepEv env Ev.tickBegin c
      = some { mem := { m1 with timer := TimerSt.stale }, db := c.db,
               pending := some p } := by
  simp only [stepEv]
  rw [if_pos hc, h]

theorem stepEv_tickBegin_done (env : Env) (c : Config) (r : TickResult) (m1 : Mem)
    (hc : (c.mem.timer = TimerSt.armed && c.pending.isNone) = true)
    (h : processChunkPrologue env c.mem c.db = ProStep.done r m1) :
    stepEv env Ev.tickBegin c
      = some { mem := { m1 with timer := afterTickTimer r TimerSt.stale m1 },
               db := c.db, pending := none } := by
  simp only [stepEv]
  rw [if_pos hc, h]

theorem stepEv_tickFinish_run (env : Env) (c : Config) (p : PendingCall)
    (h : c.pending = some p) :
    stepEv env Ev.tickFinish c
      = some { mem := { (processChunkEpilogue env p c.mem c.db).2.1 with
                 timer := afterTickTimer (processChunkEpilogue env p c.mem c.db).1
                   c.mem.timer (processChunkEpilogue env p c.mem c.db).2.1 }
               db := (processChunkEpilogue env p c.mem c.db).2.2
               pending := none } := by
  unfold stepEv
  rw [h]

/-- Trace form of `stepEv_quietPause`: from a disarmed configuration,
any run of non-ingest, non-resume, non-stop events leaves the chunk rows
unchanged and contains no tick. -/
theorem runEvents_quietPause (env : Env) (mid : List Ev) :
    ∀ (c1 c2 : Config),
      (∀ e ∈ mid, evIsAdd e = false ∧ e ≠ Ev.resume ∧ e ≠ Ev.stop) →
      c1.mem.timer ≠ TimerSt.armed → c1.pending = none →
      runEvents env mid c1 = some c2 →
      c2.db.chunks = c1.db.chunks ∧ Ev.tick ∉ mid ∧ Ev.tickBegin ∉ mid ∧
        Ev.tickFinish ∉ mid := by
  induction mid with
  | nil =>
    intro c1 c2 _ _ _ hr
    obtain rfl := Option.some.inj hr
    exact ⟨rfl, by simp, by simp, by simp⟩
  | cons e es ih =>
    intro c1 c2 hmid ht hp hr
    have he := hmid e (List.mem_cons_self e es)
    have hes : ∀ e2 ∈ es, evIsAdd e2 = false ∧ e2 ≠ Ev.resume ∧ e2 ≠ Ev.stop :=
      fun e2 h2 => hmid e2 (List.mem_cons_of_mem e h2)
    simp only [runEvents] at hr
    rcases hstep : stepEv env e c1 with _ | cmid
    · rw [hstep] at hr
      exact absurd hr (by simp)
    · rw [hstep] at hr
      obtain ⟨ht2, hp2, hch, hnt, hntb, hntf⟩ :=
        stepEv_quietPause env e c1 cmid he.1 he.2.1 he.2.2 ht hp hstep
      obtain ⟨hch2, hnt2, hntb2, hntf2⟩ := ih cmid c2 hes ht2 hp2 hr
      refine ⟨hch2.trans hch, ?_, ?_, ?_⟩
      · intro hmem
        rcases List.mem_cons.mp hmem with h | h
        · exact hnt h.symm
        · exact hnt2 h
      · intro hmem
        rcases List.mem_cons.mp hmem with h | h
        · exact hntb h.symm
        · exact hntb2 h
      · intro hmem
        rcases List.mem_cons.mp hmem with h | h
        · exact hntf h.symm
        · exact hntf2 h

/-- C1 (counterexample): with one fragment buffered, Pause, a second
fragment and the resulting tick produce a chunk row while the session is
still Paused: `addChunk` re-arms the disarmed scheduler during the
pause, and the tick callback (`processChunk`) never checks the session
state before persisting. -/
theorem C1_pausedTick_counterexample : ¬ claim1Statement := by
  intro h
  have s1 : stepEv envHello Ev.init Config.init = some cInit1 := by
    simp [stepEv, initializeSession, Config.init, cInit1, dbRecording, rowRecording]
  have s2 : stepEv envHello (Ev.add payload10k metaLoud) cInit1 = some cBuf1 := by
    simp [stepEv, addChunk, cInit1, cBuf1, freshMem, metaLoud, memBatch,
      payload10k_length, MIN_FRAGMENT_BYTES, MAX_BUFFER_SIZE]
  have s3 : stepEv envHello Ev.pause cBuf1 = some cPausedBuf := by
    simp [stepEv, pauseRecording, cBuf1, cPausedBuf, dbRecording, dbPaused,
      rowRecording, rowPaused, memBatch]
  have s4 : stepEv envHello (Ev.add payload10k metaLoud) cPausedBuf = some cPausedBuf2 := by
    simp [stepEv, addChunk, cPausedBuf, cPausedBuf2, memBatch, memBatch2, metaLoud,
      payload10k_length, MIN_FRAGMENT_BYTES, MAX_BUFFER_SIZE]
  have hpc : processChunk envHello cPausedBuf2.mem cPausedBuf2.db
      = (TickResult.committed { chunkIndex := 0, text := "hello", confidence := some 1 },
          { memBatch2 with buffers := some [], metadata := some [], lastHash := some 20000 },
          { dbPaused with
            chunks := [{ chunkIndex := 0, text := "hello", confidence := some 1 }] }) := by
    simp [processChunk, processChunkPrologue, prologueWithBuffers, processChunkEpilogue,
      cPausedBuf2, memBatch2, averageAudioLevel, silenceGate, contextFor, buildContext,
      envHello, dbPaused, rowPaused, rowRecording, payload10k_length, MIN_CHUNK_SIZE_BYTES]
    norm_num
  have s5 : stepEv envHello Ev.tick cPausedBuf2 = some cPausedTicked := by
    rw [stepEv_tick_run envHello cPausedBuf2 rfl, hpc]
    simp [cPausedTicked, cPausedBuf2, memBatch2, afterTickTimer, dbPaused]
  have hrun1 : runEvents envHello
      ([Ev.init, Ev.add payload10k metaLoud] ++ [Ev.pause]) Config.init
      = some cPausedBuf := by
    simp only [List.cons_append, List.nil_append, runEvents, s1, s2, s3]
  have hrun2 : runEvents envHello [Ev.add payload10k metaLoud, Ev.tick] cPausedBuf
      = some cPausedTicked := by
    simp only [runEvents, s4, s5]
  have hcl := h envHello [Ev.init, Ev.add payload10k metaLoud]
    [Ev.add payload10k metaLoud, Ev.tick] cPausedBuf cPausedTicked
    hrun1 rfl (by decide) hrun2
  exact hcl.2.1 (by simp)

/-- C1 (amended): `Pause` disarms the scheduler, and while it stays
disarmed -- that is, until an ingest or a Resume re-arms it (or a Stop
runs its own drain) -- no tick fires and no chunk row is produced.
`AddFragment` during the pause still accepts and buffers the fragment
(`addChunk` never reads the session state), but it also re-arms the
scheduler, whose next tick processes the batch and persists a chunk row
even though the session is still Paused. -/
theorem C1_pausedTick_amended :
    (∀ (m : Mem) (db : Db), ((pauseRecording m db).1).timer = TimerSt.idle) ∧
    (∀ (env : Env) (mid : List Ev) (c1 c2 : Config),
      (∀ e ∈ mid, evIsAdd e = false ∧ e ≠ Ev.resume ∧ e ≠ Ev.stop) →
      c1.mem.timer ≠ TimerSt.armed → c1.pending = none →
      runEvents env mid c1 = some c2 →
      c2.db.chunks = c1.db.chunks ∧ Ev.tick ∉ mid ∧ Ev.tickBegin ∉ mid) ∧
    (∀ (m : Mem) (payload : Bytes) (meta : Option MetaIn),
      MIN_FRAGMENT_BYTES ≤ payload.length →
      m.totalSize.getD 0 + payload.length ≤ MAX_BUFFER_SIZE →
      (addChunk m payload meta).1 = AddResult.ok ∧
      ((addChunk m payload meta).2).buffers = some ((m.buffers.getD []) ++ [payload]) ∧
      (m.timer = TimerSt.idle → ((addChunk m payload meta).2).timer = TimerSt.armed)) := by
  refine ⟨?_, ?_, ?_⟩
  · intro m db
    rw [pauseRecording_mem]
  · intro env mid c1 c2 hmid ht hp hr
    obtain ⟨h1, h2, h3, _⟩ := runEvents_quietPause env mid c1 c2 hmid ht hp hr
    exact ⟨h1, h2, h3⟩
  · intro m payload meta hlen hcap
    unfold addChunk
    rw [if_neg (by omega), if_neg (by omega)]
    refine ⟨rfl, rfl, ?_⟩
    intro hidle
    simp [hidle]

theorem C1_pausedTick_amended_witness :
    ((pauseRecording (memBatch (some 1)) dbRecording).1).timer = TimerSt.idle ∧
      (addChunk (freshMem TimerSt.idle) payload2048 metaLoud).1 = AddResult.ok ∧
      ((addChunk (freshMem TimerSt.idle) payload2048 metaLoud).2).timer
        = TimerSt.armed := by
  refine ⟨C1_pausedTick_amended.1 (memBatch (some 1)) dbRecording, ?_, ?_⟩
  · exact (C1_pausedTick_amended.2.2 (freshMem TimerSt.idle) payload2048 metaLoud
      (by simp [payload2048_length, MIN_FRAGMENT_BYTES])
      (by simp [freshMem, payload2048_length, MAX_BUFFER_SIZE])).1
  · exact (C1_pausedTick_amended.2.2 (freshMem TimerSt.idle) payload2048 metaLoud
      (by simp [payload2048_length, MIN_FRAGMENT_BYTES])
      (by simp [freshMem, payload2048_length, MAX_BUFFER_SIZE])).2.2 rfl

/-- A `processChunk` run over an absent or empty buffer entry does
nothing. -/
theorem processChunk_quiet (env : Env) (c : Config)
    (hb : c.mem.buffers = none ∨ c.mem.buffers = some []) :
    processChunk env c.mem c.db = (TickResult.noBuffers, c.mem, c.db) := by
  rcases hb with hb | hb
  · exact processChunk_done env c.mem c.db _ _ (processChunkPrologue_none env c.mem c.db hb)
  · apply processChunk_done
    rw [processChunkPrologue_some env c.mem c.db [] hb]
    unfold prologueWithBuffers
    simp

/-- One step after a cancel: any non-ingest event keeps the buffer entry
absent or empty, keeps nothing in flight, and changes no chunk rows. -/
theorem stepEv_quietCancel (env : Env) (e : Ev) (c c1 : Config)
    (hadd : evIsAdd e = false)
    (hb : c.mem.buffers = none ∨ c.mem.buffers = some []) (hp : c.pending = none)
    (hs : stepEv env e c = some c1) :
    (c1.mem.buffers = none ∨ c1.mem.buffers = some []) ∧ c1.pending = none ∧
      c1.db.chunks = c.db.chunks := by
  cases e with
  | init =>
    simp only [stepEv] at hs
    obtain rfl := Option.some.inj hs
    refine ⟨?_, hp, initializeSession_chunks c.mem c.db⟩
    rw [initializeSession_mem]
    exact Or.inr rfl
  | add payload meta => exact absurd hadd (by simp [evIsAdd])
  | tick =>
    by_cases hcond : (c.mem.timer = TimerSt.armed && c.pending.isNone) = true
    · rw [stepEv_tick_run env c hcond] at hs
      obtain rfl := Option.some.inj hs
      rw [processChunk_quiet env c hb]
      exact ⟨hb, rfl, rfl⟩
    · simp only [stepEv] at hs
      rw [if_neg hcond] at hs
      exact absurd hs (by simp)
  | tickBegin =>
    by_cases hcond : (c.mem.timer = TimerSt.armed && c.pending.isNone) = true
    · have hpro : processChunkPrologue env c.mem c.db
          = ProStep.done TickResult.noBuffers c.mem := by
        rcases hb with hb | hb
        · exact processChunkPrologue_none env c.mem c.db hb
        · rw [processChunkPrologue_some env c.mem c.db [] hb]
          unfold prologueWithBuffers
          simp
      rw [stepEv_tickBegin_done env c TickResult.noBuffers c.mem hcond hpro] at hs
      obtain rfl := Option.some.inj hs
      exact ⟨hb, rfl, rfl⟩
    · simp only [stepEv] at hs
      rw [if_neg hcond] at hs
      exact absurd hs (by simp)
  | tickFinish =>
    simp only [stepEv, hp] at hs
    exact absurd hs (by simp)
  | pause =>
    simp only [stepEv] at hs
    obtain rfl := Option.some.inj hs
    refine ⟨?_, hp, pauseRecording_chunks c.mem c.db⟩
    rw [pauseRecording_mem]
    exact hb
  | resume =>
    simp only [stepEv] at hs
    obtain rfl := Option.some.inj hs
    refine ⟨?_, hp, resumeRecording_chunks c.mem c.db⟩
    rw [resumeRecording_buffers]
    exact hb
  | stop =>
    have hsd := stopDrains_quiet c.mem hb
    simp only [stepEv] at hs
    obtain rfl := Option.some.inj hs
    refine ⟨?_, hp, ?_⟩
    · rw [stopRecording_noDrain env c.mem c.db hsd, stopFinalize_mem]
      exact Or.inl rfl
    · rw [stopRecording_noDrain env c.mem c.db hsd, stopFinalize_chunks]
  | cancel =>
    simp only [stepEv] at hs
    obtain rfl := Option.some.inj hs
    refine ⟨?_, hp, cancelRecording_chunks c.mem c.db⟩
    rw [cancelRecording_mem]
    exact Or.inl rfl

/-- Trace form of `stepEv_quietCancel`. -/
theorem runEvents_quietCancel (env : Env) (mid : List Ev) :
    ∀ (c1 c2 : Config),
      (∀ e ∈ mid, evIsAdd e = false) →
      (c1.mem.buffers = none ∨ c1.mem.buffers = some []) → c1.pending = none →
      runEvents env mid c1 = some c2 →
      c2.db.chunks = c1.db.chunks := by
  induction mid with
  | nil =>
    intro c1 c2 _ _ _ hr
    obtain rfl := Option.some.inj hr
    rfl
  | cons e es ih =>
    intro c1 c2 hmid hbuf hp hr
    have he := hmid e (List.mem_cons_self e es)
    have hes : ∀ e2 ∈ es, evIsAdd e2 = false :=
      fun e2 h2 => hmid e2 (List.mem_cons_of_mem e h2)
    simp only [runEvents] at hr
    rcases hstep : stepEv env e c1 with _ | cmid
    · rw [hstep] at hr
      exact absurd hr (by simp)
    · rw [hstep] at hr
      obtain ⟨hb2, hp2, hch⟩ := stepEv_quietCancel env e c1 cmid he hbuf hp hstep
      exact (ih cmid c2 hes hb2 hp2 hr).trans hch

/-- C2 (counterexample): a transcriber call that is in flight when
`Cancel` arrives is NOT discarded: there is no post-flight state check,
so its completion still creates a chunk row for the cancelled session. -/
theorem C2_cancelTick_counterexample : ¬ claim2Statement := by
  intro h
  have s1 : stepEv envHello Ev.init Config.init = some cInit1 := by
    simp [stepEv, initializeSession, Config.init, cInit1, dbRecording, rowRecording]
  have s2 : stepEv envHello (Ev.add payload10k metaLoud) cInit1 = some cBuf1 := by
    simp [stepEv, addChunk, cInit1, cBuf1, freshMem, metaLoud, memBatch,
      payload10k_length, MIN_FRAGMENT_BYTES, MAX_BUFFER_SIZE]
  have hpro : processChunkPrologue envHello cBuf1.mem cBuf1.db
      = ProStep.call pendingHello
          { memBatch (some 1) with metadata := some [], lastHash := some 10000 } := by
    simp [processChunkPrologue, prologueWithBuffers, cBuf1, memBatch, averageAudioLevel,
      silenceGate, contextFor, buildContext, envHello, dbRecording, rowRecording,
      payload10k_length, MIN_CHUNK_SIZE_BYTES, pendingHello]
    norm_num
  have s3 : stepEv envHello Ev.tickBegin cBuf1 = some cInFlight := by
    rw [stepEv_tickBegin_call envHello cBuf1 pendingHello
      { memBatch (some 1) with metadata := some [], lastHash := some 10000 } rfl hpro]
    simp [cInFlight, cBuf1, memBatch]
  have s4 : stepEv envHello Ev.cancel cInFlight = some cCancelledInFlight := by
    simp [stepEv, cancelRecording, cInFlight, cCancelledInFlight, dbRecording,
      rowRecording, dbCancelled, rowCancelled, clearedMem]
  have hepi : processChunkEpilogue envHello pendingHello cCancelledInFlight.mem
        cCancelledInFlight.db
      = (TickResult.committed { chunkIndex := 0, text := "hello", confidence := some 1 },
          { clearedMem with buffers := some [], metadata := some [] },
          { dbCancelled with
            chunks := [{ chunkIndex := 0, text := "hello", confidence := some 1 }] }) := by
    simp [processChunkEpilogue, pendingHello, cCancelledInFlight, envHello, dbCancelled,
      clearedMem]
  have s5 : stepEv envHello Ev.tickFinish cCancelledInFlight = some cAfterCancelTick := by
    rw [stepEv_tickFinish_run envHello cCancelledInFlight pendingHello rfl, hepi]
    simp [cAfterCancelTick, cCancelledInFlight, afterTickTimer, clearedMem, dbCancelled]
  have hrun1 : runEvents envHello
      ([Ev.init, Ev.add payload10k metaLoud, Ev.tickBegin] ++ [Ev.cancel]) Config.init
      = some cCancelledInFlight := by
    simp only [List.cons_append, List.nil_append, runEvents, s1, s2, s3, s4]
  have hrun2 : runEvents envHello [Ev.tickFinish] cCancelledInFlight
      = some cAfterCancelTick := by
    simp only [runEvents, s5]
  have hcl := h envHello [Ev.init, Ev.add payload10k metaLoud, Ev.tickBegin]
    [Ev.tickFinish] cCancelledInFlight cAfterCancelTick hrun1 (by decide) hrun2
  have hlen := hcl.1
  simp [cAfterCancelTick, cCancelledInFlight, dbCancelled] at hlen

/-- C2 (amended): `Cancel` clears every in-memory entry and flips the
row to Cancelled, so any later tick over the emptied buffers -- and in
fact any run of non-ingest events -- creates no further chunk row.  But
a transcriber call already in flight when `Cancel` arrives is not
discarded: its completion still creates one more chunk row, because
`processChunk` performs no state check after the call returns. -/
theorem C2_cancelTick_amended :
    (∀ (m : Mem) (db : Db),
      (cancelRecording m db).1 = clearedMem ∧
      (∀ s, db.session = some s →
        ((cancelRecording m db).2).session
          = some { s with status := SessionStatus.CANCELLED })) ∧
    (∀ (env : Env) (mid : List Ev) (c1 c2 : Config),
      (∀ e ∈ mid, evIsAdd e = false) →
      (c1.mem.buffers = none ∨ c1.mem.buffers = some []) → c1.pending = none →
      runEvents env mid c1 = some c2 →
      c2.db.chunks = c1.db.chunks) := by
  constructor
  · intro m db
    refine ⟨cancelRecording_mem m db, ?_⟩
    intro s hs
    simp [cancelRecording, hs]
  · intro env mid c1 c2 hmid hb hp hr
    exact runEvents_quietCancel env mid c1 c2 hmid hb hp hr

theorem C2_cancelTick_amended_witness :
    (cancelRecording (memBatch (some 1)) dbRecording).1 = clearedMem ∧
      ((cancelRecording (memBatch (some 1)) dbRecording).2).session
        = some { rowRecording with status := SessionStatus.CANCELLED } ∧
      cQuietTick1.db.chunks = cQuietTick1.db.chunks := by
  have hq : runEvents envHello [Ev.tick] cQuietTick1 = some cQuietTick1 := by
    have hqc : processChunk envHello cQuietTick1.mem cQuietTick1.db
        = (TickResult.noBuffers, cQuietTick1.mem, cQuietTick1.db) :=
      processChunk_quiet envHello cQuietTick1 (Or.inr rfl)
    simp only [runEvents]
    rw [stepEv_tick_run envHello cQuietTick1 rfl, hqc]
    simp [cQuietTick1, afterTickTimer, clearedMem]
  refine ⟨(C2_cancelTick_amended.1 (memBatch (some 1)) dbRecording).1,
    (C2_cancelTick_amended.1 (memBatch (some 1)) dbRecording).2 rowRecording rfl,
    C2_cancelTick_amended.2 envHello [Ev.tick] cQuietTick1 cQuietTick1
      (by decide) (Or.inr rfl) rfl hq⟩

end AudioPipeline
